import Mathlib

/-!
Verification of the ClawBridge runner core (discovery execution, response
recovery, validation, vault upload) against its natural-language design
specification.  The TypeScript sources are shallowly embedded: pure functions
become Lean functions, the JavaScript runtime pieces they rely on
(`JSON.parse`, the two literal regular expressions, `new URL(...).hostname`,
axios outcomes, child-process outcomes) are modelled explicitly, and effectful
code is turned into explicit state passing over outcome records.
-/

namespace ClawBridge

/-! ### Character and list scanning helpers -/

/-- The backtick character (written via its code point). -/
def backtick : Char := Char.ofNat 96

/-- JSON whitespace (also the core of JavaScript `\s` for the inputs modelled
here): space, tab, line feed, carriage return. -/
def jsonWs (c : Char) : Bool := c = ' ' || c = '\t' || c = '\n' || c = '\r'

/-- Drop leading JSON whitespace. -/
def skipWs : List Char → List Char
  | c :: cs => if jsonWs c then skipWs cs else c :: cs
  | [] => []

/-- Drop the whitespace at both ends of a character list.  Models both
`String.prototype.trim` and the `\s*` padding around a regex capture group for
the whitespace characters that actually occur in the modelled data. -/
def trimChars (cs : List Char) : List Char :=
  ((cs.dropWhile jsonWs).reverse.dropWhile jsonWs).reverse

/-- Does `pat` occur at the head of `cs`? -/
def leadsWith (pat : List Char) (cs : List Char) : Bool :=
  match pat, cs with
  | [], _ => true
  | _ :: _, [] => false
  | p :: ps, c :: cs => p = c && leadsWith ps cs

/-- Index of the first occurrence of `pat` inside `cs`, if any. -/
def firstOccIdx (pat : List Char) : List Char → Option Nat
  | [] => if leadsWith pat [] then some 0 else none
  | c :: cs =>
    if leadsWith pat (c :: cs) then some 0
    else (firstOccIdx pat cs).map (· + 1)

/-- ASCII lowercasing of one character (model of the case folding
`toLowerCase` and the URL parser apply; the modelled data is ASCII). -/
def lowerChar (c : Char) : Char :=
  if 'A' ≤ c && c ≤ 'Z' then Char.ofNat (c.toNat + 32) else c

/-- ASCII lowercasing of a string. -/
def lowerAscii (s : String) : String := String.mk (s.data.map lowerChar)

/-- Model of `String.prototype.trim` on the whitespace characters the
modelled data contains. -/
def jsTrim (s : String) : String := String.mk (trimChars s.data)

/-- Index of the last occurrence of `pat` inside `cs`, if any. -/
def lastOccIdx (pat : List Char) (cs : List Char) : Option Nat :=
  match cs with
  | [] => if leadsWith pat [] then some 0 else none
  | c :: cs' =>
    match lastOccIdx pat cs' with
    | some i => some (i + 1)
    | none => if leadsWith pat (c :: cs') then some 0 else none

/-! ### JSON values

`JSON.parse` is modelled by a total recursive-descent parser over the full
JSON grammar.  Numbers keep their source lexeme (two parses of the same text
always agree, which is all the claims need, and it avoids committing to a
floating-point model). -/

inductive Json where
  | null
  | bool (b : Bool)
  | num (lexeme : String)
  | str (s : String)
  | arr (items : List Json)
  | obj (fields : List (String × Json))
deriving Repr

/-- Decimal digit test. -/
def isDig (c : Char) : Bool := 48 ≤ c.toNat && c.toNat < 58

/-- Split off a maximal run of decimal digits. -/
def digitSpan (cs : List Char) : List Char × List Char :=
  (cs.takeWhile isDig, cs.dropWhile isDig)

/-- Value of one hexadecimal digit, read off the code point. -/
def hexDigit (c : Char) : Option Nat :=
  let n := c.toNat
  if 48 ≤ n && n < 58 then some (n - 48)
  else if 97 ≤ n && n < 103 then some (n - 87)
  else if 65 ≤ n && n < 71 then some (n - 55)
  else none

/-- Value of a four-hex-digit escape, accumulated left to right. -/
def hexQuad (a b c d : Char) : Option Nat :=
  [a, b, c, d].foldl
    (fun acc ch => acc.bind (fun v => (hexDigit ch).map (fun w => 16 * v + w)))
    (some 0)

/-- Single-character escapes allowed after a backslash in a JSON string. -/
def escChar : Char → Option Char
  | '"' => some '"'
  | '\\' => some '\\'
  | '/' => some '/'
  | 'b' => some (Char.ofNat 8)
  | 'f' => some (Char.ofNat 12)
  | 'n' => some '\n'
  | 'r' => some '\r'
  | 't' => some '\t'
  | _ => none

/-- Stand-in for a lone UTF-16 surrogate, which a Lean `Char` cannot carry
(JavaScript strings can; no modelled input contains one). -/
def loneSurrogate : Char := Char.ofNat 0xFFFD

/-- Decode the character denoted by a `\uXXXX` escape of value `n`, consuming
a following low-surrogate escape from `rest` when `n` is a high surrogate. -/
def uEscape (n : Nat) (rest : List Char) : Char × List Char :=
  if 0xD800 ≤ n && n ≤ 0xDBFF then
    match rest with
    | '\\' :: 'u' :: a2 :: b2 :: c2 :: d2 :: rest2 =>
      match hexQuad a2 b2 c2 d2 with
      | some m =>
        if 0xDC00 ≤ m && m ≤ 0xDFFF then
          (Char.ofNat (0x10000 + (n - 0xD800) * 0x400 + (m - 0xDC00)), rest2)
        else (loneSurrogate, rest)
      | none => (loneSurrogate, rest)
    | _ => (loneSurrogate, rest)
  else if 0xDC00 ≤ n && n ≤ 0xDFFF then (loneSurrogate, rest)
  else (Char.ofNat n, rest)

/-- Parse the body of a JSON string after the opening quote, handling escapes
(including `\uXXXX` with surrogate pairs) and rejecting raw control
characters, as `JSON.parse` does.  Recursion is structural on a fuel
counter so the definition evaluates inside the kernel; every step consumes
at least one character, so any fuel above the input length is enough. -/
def parseStrBody : Nat → List Char → List Char → Option (String × List Char)
  | 0, _, _ => none
  | Nat.succ fuel, acc, cs =>
    match cs with
    | '"' :: tl => some (String.mk acc.reverse, tl)
    | '\\' :: 'u' :: e1 :: e2 :: e3 :: e4 :: tl =>
      match hexQuad e1 e2 e3 e4 with
      | none => none
      | some n =>
        let p := uEscape n tl
        parseStrBody fuel (p.1 :: acc) p.2
    | '\\' :: e :: tl =>
      match escChar e with
      | some ch => parseStrBody fuel (ch :: acc) tl
      | none => none
    | c :: tl => if c.toNat < 0x20 then none else parseStrBody fuel (c :: acc) tl
    | [] => none

/-- Parse a JSON number, keeping its lexeme.  Enforces the JSON grammar: an
optional minus sign, an integer part without leading zeros, an optional
fraction with at least one digit, an optional exponent with at least one
digit. -/
def parseNum (cs : List Char) : Option (Json × List Char) :=
  let (sgn, cs1) : List Char × List Char :=
    match cs with
    | '-' :: r => (['-'], r)
    | _ => ([], cs)
  match cs1 with
  | c :: rest =>
    if c = '0' then numTail sgn ['0'] rest
    else if isDig c then
      let (ds, r) := digitSpan rest
      numTail sgn (c :: ds) r
    else none
  | [] => none
where
  /-- Fraction and exponent parts, then assembly of the lexeme. -/
  numTail (sgn intPart : List Char) (cs : List Char) : Option (Json × List Char) :=
    let fracStep : Option (List Char × List Char) :=
      match cs with
      | '.' :: r =>
        let (ds, r2) := digitSpan r
        if ds.isEmpty then none else some ('.' :: ds, r2)
      | _ => some ([], cs)
    match fracStep with
    | none => none
    | some (fracPart, cs2) =>
      let expStep : Option (List Char × List Char) :=
        match cs2 with
        | 'e' :: r => expDigits ['e'] r
        | 'E' :: r => expDigits ['E'] r
        | _ => some ([], cs2)
      match expStep with
      | none => none
      | some (expPart, cs3) =>
        some (Json.num (String.mk (sgn ++ intPart ++ fracPart ++ expPart)), cs3)
  /-- Exponent sign and digits. -/
  expDigits (e : List Char) (cs : List Char) : Option (List Char × List Char) :=
    let (sgn2, r) : List Char × List Char :=
      match cs with
      | '+' :: r2 => (['+'], r2)
      | '-' :: r2 => (['-'], r2)
      | _ => ([], cs)
    let (ds, r2) := digitSpan r
    if ds.isEmpty then none else some (e ++ sgn2 ++ ds, r2)

/-- Consume a literal keyword tail (the rest of `null`, `true`, `false`). -/
def afterLit (lit : List Char) (cs : List Char) : Option (List Char) :=
  if leadsWith lit cs then some (cs.drop lit.length) else none

/-- What the grammar walker is currently parsing: one value, the items of an
array after its opening bracket, or the members of an object after its
opening brace. -/
inductive ParseTask where
  | value
  | items
  | fields

/-- The JSON grammar walker.  `items` returns `Json.arr`, `fields` returns
`Json.obj`, so a single function covers the grammar and recursion is
structural on the fuel counter (which keeps every evaluation kernel-
reducible).  Entering a production consumes one fuel; the top-level entry
point supplies ample fuel for its input. -/
def parseCore : Nat → ParseTask → List Char → Option (Json × List Char)
  | 0, _, _ => none
  | Nat.succ fuel, ParseTask.value, cs =>
    match skipWs cs with
    | [] => none
    | c :: rest =>
      if c = '{' then
        match skipWs rest with
        | '}' :: r2 => some (Json.obj [], r2)
        | r2 => parseCore fuel ParseTask.fields r2
      else if c = '[' then
        match skipWs rest with
        | ']' :: r2 => some (Json.arr [], r2)
        | r2 => parseCore fuel ParseTask.items r2
      else if c = '"' then
        (parseStrBody (rest.length + 1) [] rest).map (fun p => (Json.str p.1, p.2))
      else if c = 't' then
        (afterLit ['r', 'u', 'e'] rest).map (fun r => (Json.bool true, r))
      else if c = 'f' then
        (afterLit ['a', 'l', 's', 'e'] rest).map (fun r => (Json.bool false, r))
      else if c = 'n' then
        (afterLit ['u', 'l', 'l'] rest).map (fun r => (Json.null, r))
      else if c = '-' || isDig c then parseNum (c :: rest)
      else none
  | Nat.succ fuel, ParseTask.items, cs =>
    match parseCore fuel ParseTask.value cs with
    | none => none
    | some (v, r) =>
      match skipWs r with
      | ',' :: r2 =>
        match parseCore fuel ParseTask.items r2 with
        | some (Json.arr vs, r3) => some (Json.arr (v :: vs), r3)
        | _ => none
      | ']' :: r2 => some (Json.arr [v], r2)
      | _ => none
  | Nat.succ fuel, ParseTask.fields, cs =>
    match skipWs cs with
    | '"' :: r =>
      match parseStrBody (r.length + 1) [] r with
      | none => none
      | some (key, r1) =>
        match skipWs r1 with
        | ':' :: r2 =>
          match parseCore fuel ParseTask.value r2 with
          | none => none
          | some (v, r3) =>
            match skipWs r3 with
            | ',' :: r4 =>
              match parseCore fuel ParseTask.fields r4 with
              | some (Json.obj ms, r5) => some (Json.obj ((key, v) :: ms), r5)
              | _ => none
            | '}' :: r4 => some (Json.obj [(key, v)], r4)
            | _ => none
        | _ => none
    | _ => none

/-- Parse one JSON value, returning it with the unconsumed remainder. -/
def parseVal (fuel : Nat) (cs : List Char) : Option (Json × List Char) :=
  parseCore fuel ParseTask.value cs

/-- Model of `JSON.parse`: trims the surrounding whitespace (which
`JSON.parse` ignores), parses one value and requires nothing but whitespace
to remain.  Returns `none` where `JSON.parse` throws. -/
def parseJson (s : String) : Option Json :=
  let cs := trimChars s.data
  match parseVal (2 * cs.length + 2) cs with
  | some (v, rest) => if skipWs rest = [] then some v else none
  | none => none

/-! ### JavaScript-style accessors on parsed values -/

/-- Property access `j[k]` on a parsed value: defined only for objects, with
the last duplicate key winning, as in objects built by `JSON.parse`.
`none` models `undefined`. -/
def jsField (j : Json) (k : String) : Option Json :=
  match j with
  | .obj fields => fields.foldl (fun acc f => if f.1 = k then some f.2 else acc) none
  | _ => none

/-- The `.length` property: defined for arrays and strings, `none`
(`undefined`) otherwise. -/
def jsLength : Json → Option Nat
  | .arr items => some items.length
  | .str s => some s.length
  | _ => none

/-- Is a number lexeme a representation of zero (every digit zero)? -/
def zeroLexeme (s : String) : Bool :=
  let mantissa := s.data.takeWhile (fun c => c ≠ 'e' && c ≠ 'E')
  mantissa.all (fun c => !isDig c || c = '0')

/-- JavaScript truthiness of a parsed JSON value: `null`, `false`, `0` and
`""` are falsy, everything else (including `[]` and `\x7b\x7d`) is truthy. -/
def jsTruthy : Json → Bool
  | .null => false
  | .bool b => b
  | .num lexeme => !zeroLexeme lexeme
  | .str s => s ≠ ""
  | .arr _ => true
  | .obj _ => true

/-- Truthiness of `x?.length` for an optional value `x`: true exactly when
the value is present and has a positive `.length`. -/
def truthyLength (o : Option Json) : Bool :=
  match o with
  | some j =>
    match jsLength j with
    | some n => n ≠ 0
    | none => false
  | none => false

/-- The string content of an optional value, with `undefined` (and any
non-string value, which no modelled input produces) collapsing to `""` as in
`x?.text ?? ""`. -/
def strOrEmpty (o : Option Json) : String :=
  match o with
  | some (.str s) => s
  | _ => ""

/-- The string value of a property of a parsed object, when present and a
string. -/
def jsStrField (j : Json) (k : String) : Option String :=
  match jsField j k with
  | some (Json.str s) => some s
  | _ => none

/-- Index access `xs[i]` on a parsed value that should be an array
(`undefined` otherwise). -/
def jsIndex (j : Json) (i : Nat) : Option Json :=
  match j with
  | .arr items => items.get? i
  | _ => none

/-! ### The two literal regular expressions of the response parser -/

/-- The three-backtick fence delimiter. -/
def fence : List Char := [backtick, backtick, backtick]

/-- All start indices (overlapping included) at which `pat` occurs in `cs`. -/
def occIndices (pat : List Char) : List Char → List Nat
  | [] => if leadsWith pat [] then [0] else []
  | c :: cs =>
    (if leadsWith pat (c :: cs) then [0] else []) ++ (occIndices pat cs).map (· + 1)

/-- Model of matching the literal pattern used by the source, written there as
a fenced-code-block regex (three backticks, an optional `json` tag, a lazy
body capture, three closing backticks): take the text between the first fence
and the next fence after it, strip an optional leading `json` tag, and strip
the surrounding whitespace (the `\s*` padding of the capture group).
Returns `none` where the regex does not match.  A start position whose fence
has no closing fence can only be followed by positions in the same situation,
so only the first fence needs to be tried. -/
def fencedCapture (t : String) : Option String :=
  let cs := t.data
  match firstOccIdx fence cs with
  | none => none
  | some i =>
    let region := cs.drop (i + 3)
    let region2 := if leadsWith ['j', 's', 'o', 'n'] region then region.drop 4 else region
    match firstOccIdx fence region2 with
    | none => none
    | some m => some (String.mk (trimChars (region2.take m)))

/-- The literal marker the fallback regex scans for: `"candidates"` with its
quotes. -/
def candidatesMarker : List Char := '"' :: ('c' :: 'a' :: 'n' :: 'd' :: 'i' :: 'd' :: 'a' :: 't' :: 'e' :: 's' :: ['"'])

/-- Model of the source's fallback regex (an opening brace, anything, the
literal `"candidates"` marker, anything, a closing brace, with both gaps
greedy): the match runs from the first opening brace that still has a marker
occurrence after it to the last closing brace in the text, and exists exactly
when a marker occurrence fits strictly between those two braces. -/
def candidatesSpan (t : String) : Option String :=
  let cs := t.data
  match lastOccIdx ['}'] cs with
  | none => none
  | some jstar =>
    let ks := (occIndices candidatesMarker cs).filter
      (fun k => k + candidatesMarker.length ≤ jstar)
    match ks.max? with
    | none => none
    | some kmax =>
      match firstOccIdx ['{'] cs with
      | none => none
      | some i =>
        if i < kmax then some (String.mk ((cs.drop i).take (jstar - i + 1)))
        else none

/-! ### The shared result shape (`DiscoveryResult` in `openclaw.ts`)

The TypeScript interface types `candidates` as `any[]` and never checks the
shapes at runtime, so candidate lists, summaries and the numeric metadata
fields are carried as parsed JSON values. -/

/-- The tag recording which tool produced a result. -/
inductive Source where
  | openclaw
  | clawdbot
  | moltbot
  | simulated
deriving DecidableEq, Repr

/-- The `metadata` record of a `DiscoveryResult`.  `candidates_evaluated` is
always set from an array length; `completed` is optional in the interface. -/
structure Metadata where
  searches_performed : Json
  pages_fetched : Json
  candidates_evaluated : Nat
  completed : Option Bool
deriving Repr

/-- The normalized result produced by one successful tool attempt. -/
structure DiscoveryResult where
  candidates : Json
  summary : Json
  metadata : Metadata
  source : Source
deriving Repr

/-- The ambient clock, reduced to the only use the simulated results make of
it: rendering the ISO date a given number of days before now. -/
structure Clock where
  isoDateDaysAgo : Nat → String

/-- Fallback `x || 0` on an optional numeric field: a missing or falsy value
becomes the number zero. -/
def orZeroNum (o : Option Json) : Json :=
  match o with
  | some j => if jsTruthy j then j else Json.num "0"
  | none => Json.num "0"

/-- Outcome of one agent-tool invocation, as seen by the orchestrator:
`none` when the availability probe failed, otherwise the result the
tool-specific executor produced. -/
structure ToolEnv where
  openclawAvailable : Bool
  clawdbotAvailable : Bool
  openclawOutcome : Option DiscoveryResult
  clawdbotOutcome : Option DiscoveryResult
  clock : Clock

/-- The orchestrator's usability test `result?.candidates.length` on one
tool's outcome. -/
def usable (o : Option DiscoveryResult) : Option DiscoveryResult :=
  match o with
  | some r => if truthyLength (some r.candidates) then some r else none
  | none => none

namespace OpenClawV2

/-!
The exec-based revision of `openclaw.ts` (the second revision in the file):
`executeViaCLI` runs the tool through `execAsync` with a kill timeout of
`NODE_TIMEOUT_MS` and recovers partial stdout from the thrown error object.
-/

/-- `extractJsonFromResponse`: the three layered strategies — direct
`JSON.parse`, first fenced code block, fallback brace-to-brace scan for a
span containing the `"candidates"` marker. -/
def extractJsonFromResponse (text : String) : Option Json :=
  (parseJson text)
    <|> ((fencedCapture text).bind parseJson)
    <|> ((candidatesSpan text).bind parseJson)

/-- The literal default summary built when the payload carries none. -/
def defaultSummary (n : Nat) : Json :=
  Json.obj
    [("headline", Json.str ("Found " ++ toString n ++ " candidates")),
     ("key_insights", Json.arr []),
     ("venues_searched", Json.arr [])]

/-- The part of `parseResponse` that runs on the selected agent text:
extraction, the `!discoveryData?.candidates?.length` rejection, and assembly
of the `DiscoveryResult` (with `completed: true`). -/
def parseFromText (agentText : String) (source : Source) : Option DiscoveryResult :=
  match extractJsonFromResponse agentText with
  | none => none
  | some data =>
    if truthyLength (jsField data "candidates") then
      let cands := (jsField data "candidates").getD Json.null
      let n := (jsLength cands).getD 0
      some
        { candidates := cands
          summary :=
            match jsField data "summary" with
            | some s => if jsTruthy s then s else defaultSummary n
            | none => defaultSummary n
          metadata :=
            { searches_performed :=
                orZeroNum ((jsField data "metadata").bind (fun m => jsField m "searches_performed"))
              pages_fetched :=
                orZeroNum ((jsField data "metadata").bind (fun m => jsField m "pages_fetched"))
              candidates_evaluated := n
              completed := some true }
          source := source }
    else none

/-- The agent-text selection `cliResponse.payloads?.[0]?.text ?? ''`: the
text of the first payload entry, defaulting to the empty string. -/
def firstPayloadText (j : Json) : String :=
  strOrEmpty (((jsField j "payloads").bind (fun p => jsIndex p 0)).bind (fun e => jsField e "text"))

/-- `parseResponse`: parse the outer envelope, select the agent text from the
first payload, then run the layered extraction on it. -/
def parseResponse (stdout : String) (source : Source) : Option DiscoveryResult :=
  (parseJson stdout).bind (fun cliResponse => parseFromText (firstPayloadText cliResponse) source)

/-- Following the specification's words, for comparison with the code: select
the agent text by scanning the payload list from the last entry backward and
taking the first payload with non-empty text. -/
def specAgentText (j : Json) : String :=
  match jsField j "payloads" with
  | some (Json.arr ps) =>
    strOrEmpty
      ((ps.reverse.find? (fun p => strOrEmpty (jsField p "text") ≠ "")).bind
        (fun p => jsField p "text"))
  | _ => ""

/-- The response parser the specification describes: like `parseResponse` but
with the backward payload scan. -/
def specParseResponse (stdout : String) (source : Source) : Option DiscoveryResult :=
  (parseJson stdout).bind (fun cliResponse => parseFromText (specAgentText cliResponse) source)

/-- Outcome of `execAsync` on the composed command: a clean resolution with
the accumulated streams, or a rejection carrying the error object's `killed`
flag, `signal`, and partial `stdout`/`stderr` captures. -/
inductive ExecOutcome where
  | success (stdout : String) (stderr : String)
  | failure (killed : Bool) (signal : Option String) (stdout : Option String)
      (stderr : Option String) (message : String)

/-- `executeViaCLI`: no configured agent aborts the attempt; a clean exit is
parsed directly; a kill (the `error.killed` flag or a SIGTERM signal) with
non-empty captured stdout goes through the partial-result recovery, which
marks `metadata.completed = false` on success. -/
def executeViaCLI (agent : Option String) (outcome : ExecOutcome) (cli : Source) :
    Option DiscoveryResult :=
  match agent with
  | none => none
  | some _ =>
    match outcome with
    | .success stdout _ => parseResponse stdout cli
    | .failure killed signal stdoutOpt _ _ =>
      let isTimeout := killed || signal = some "SIGTERM"
      if isTimeout then
        match stdoutOpt with
        | some s =>
          if s ≠ "" then
            match parseResponse s cli with
            | some partialR =>
              some { partialR with metadata := { partialR.metadata with completed := some false } }
            | none => none
          else none
        | none => none
      else none

/-- The hard-coded simulated result of the exec-based revision (two
candidates; dates come from the clock). -/
def getSimulatedResult (clock : Clock) : DiscoveryResult :=
  { candidates := Json.arr
      [Json.obj
        [("name", Json.str "Sarah Jenkins"),
         ("handle", Json.str "@sjenkins_growth"),
         ("role", Json.str "Head of Growth"),
         ("company", Json.str "CloudScale AI"),
         ("why_match", Json.arr
           [Json.str "B2B content partnerships interest",
            Json.str "Active in SaaS communities"]),
         ("evidence_urls", Json.arr
           [Json.str "https://linkedin.com/in/sjenkins-growth",
            Json.str "https://cloudscale.ai/about"]),
         ("risk_flags", Json.arr []),
         ("scores", Json.obj
           [("relevance", Json.num "95"), ("intent", Json.num "88"),
            ("credibility", Json.num "90"), ("recency", Json.num "98"),
            ("engagement", Json.num "85"), ("final_score", Json.num "92.2")]),
         ("last_activity", Json.str (clock.isoDateDaysAgo 4)),
         ("suggested_intro",
           Json.str "Hi Sarah, saw your content about CloudScale. Would you be open to a quick chat?")],
       Json.obj
        [("name", Json.str "Marcus Thorne"),
         ("handle", Json.str "@mthorne_dev"),
         ("role", Json.str "Founder"),
         ("company", Json.str "StackFlow Solutions"),
         ("why_match", Json.arr
           [Json.str "Technical Founder persona",
            Json.str "Verified LinkedIn presence"]),
         ("evidence_urls", Json.arr
           [Json.str "https://linkedin.com/in/mthorne",
            Json.str "https://stackflow.io/about"]),
         ("risk_flags", Json.arr [Json.str "low_evidence"]),
         ("scores", Json.obj
           [("relevance", Json.num "82"), ("intent", Json.num "65"),
            ("credibility", Json.num "92"), ("recency", Json.num "70"),
            ("engagement", Json.num "60"), ("final_score", Json.num "76.5")]),
         ("last_activity", Json.str (clock.isoDateDaysAgo 12)),
         ("suggested_intro",
           Json.str "Hi Marcus, impressive work on StackFlow. Our content ops framework might interest you.")]]
    summary := Json.obj
      [("headline", Json.str "Found 2 candidates (simulated)"),
       ("key_insights", Json.arr
         [Json.str "Using simulated data - install openclaw or clawdbot for real discovery"]),
       ("venues_searched", Json.arr [Json.str "linkedin", Json.str "web"])]
    metadata :=
      { searches_performed := Json.num "0"
        pages_fetched := Json.num "0"
        candidates_evaluated := 2
        completed := none }
    source := Source.simulated }

/-- `executeDiscovery`: try OpenClaw when available, then Clawdbot when
available, keeping the first outcome whose `candidates.length` is truthy;
otherwise return the simulated result. -/
def executeDiscovery (env : ToolEnv) : DiscoveryResult :=
  match (if env.openclawAvailable then usable env.openclawOutcome else none) with
  | some r => r
  | none =>
    match (if env.clawdbotAvailable then usable env.clawdbotOutcome else none) with
    | some r => r
    | none => getSimulatedResult env.clock

end OpenClawV2

namespace OpenClawV3

/-!
The spawn-based revision of `openclaw.ts` (the last revision in the file):
`runCLI` spawns the tool, accumulates both streams, kills the process when
the timer fires, and on `close` resolves the accumulated stdout whenever it
is non-empty — regardless of exit code or signal. -/

/-- `extractJson` of the spawn-based revision; its source text is the same
three-strategy extraction as `extractJsonFromResponse` above. -/
def extractJson (text : String) : Option Json :=
  OpenClawV2.extractJsonFromResponse text

/-- `parseResult` of the spawn-based revision; its source text is
`parseResponse` above minus logging.  In particular it also sets
`completed: true` unconditionally. -/
def parseResult (stdout : String) (source : Source) : Option DiscoveryResult :=
  OpenClawV2.parseResponse stdout source

/-- One spawned process execution as `runCLI` observes it. -/
structure ProcRun where
  stdoutAccum : String
  stderrAccum : String
  exitCode : Option Int
  signal : Option String
  killedByTimer : Bool

/-- `runCLI`: on `close`, resolve the accumulated stdout when non-empty —
also when the process was killed by the timeout timer — else reject. -/
def runCLI (p : ProcRun) : Except String String :=
  if p.stdoutAccum ≠ "" then Except.ok p.stdoutAccum
  else Except.error ("Process exited with code " ++ toString p.exitCode ++ ", signal " ++ toString p.signal)

/-- `executeViaCLI` of the spawn-based revision: require an agent, run the
process, parse whatever stdout was resolved; a rejection yields `null`. -/
def executeViaCLI (agent : Option String) (p : ProcRun) (cli : Source) :
    Option DiscoveryResult :=
  match agent with
  | none => none
  | some _ =>
    match runCLI p with
    | .ok stdout => parseResult stdout cli
    | .error _ => none

/-- The hard-coded simulated result of the spawn-based revision (one
candidate). -/
def getSimulatedResult (clock : Clock) : DiscoveryResult :=
  { candidates := Json.arr
      [Json.obj
        [("name", Json.str "Sarah Jenkins"),
         ("handle", Json.str "@sjenkins_growth"),
         ("role", Json.str "Head of Growth"),
         ("company", Json.str "CloudScale AI"),
         ("why_match", Json.arr [Json.str "B2B content partnerships interest"]),
         ("evidence_urls", Json.arr [Json.str "https://linkedin.com/in/sjenkins-growth"]),
         ("risk_flags", Json.arr []),
         ("scores", Json.obj
           [("relevance", Json.num "95"), ("intent", Json.num "88"),
            ("final_score", Json.num "92")]),
         ("last_activity", Json.str (clock.isoDateDaysAgo 4)),
         ("suggested_intro", Json.str "Hi Sarah, would you be open to a quick chat?")]]
    summary := Json.obj
      [("headline", Json.str "Found 1 candidate (simulated)"),
       ("key_insights", Json.arr [Json.str "Using simulated data"]),
       ("venues_searched", Json.arr [Json.str "web"])]
    metadata :=
      { searches_performed := Json.num "0"
        pages_fetched := Json.num "0"
        candidates_evaluated := 1
        completed := none }
    source := Source.simulated }

/-- `executeDiscovery` of the spawn-based revision: OpenClaw, then Clawdbot,
then the simulated fallback. -/
def executeDiscovery (env : ToolEnv) : DiscoveryResult :=
  match (if env.openclawAvailable then usable env.openclawOutcome else none) with
  | some r => r
  | none =>
    match (if env.clawdbotAvailable then usable env.clawdbotOutcome else none) with
    | some r => r
    | none => getSimulatedResult env.clock

end OpenClawV3

/-! ### `validate.ts` -/

/-- A candidate as the validator consults it.  The interface's remaining
fields (`role`, `why_match`, `scores`, `last_activity`, `suggested_intro`,
`suggested_followup`, `risk_flags`) are not read by any embedded function and
are omitted. -/
structure Candidate where
  name : String
  handle : Option String
  company : Option String
  evidence_urls : List String
deriving DecidableEq, Repr

/-- A connection brief as the validator consults it (`run_metadata`,
`next_actions` and `summary` are not read by any embedded function). -/
structure ConnectionBrief where
  workspace_id : String
  run_id : String
  project_profile_hash : String
  candidates : List Candidate
deriving DecidableEq, Repr

structure ValidationError where
  path : String
  message : String
deriving DecidableEq, Repr

structure ValidationResult where
  valid : Bool
  errors : List ValidationError
deriving DecidableEq, Repr

/-- The error-path label `candidate.handle || candidate.name`. -/
def candidateLabel (c : Candidate) : String :=
  match c.handle with
  | some h => if h = "" then c.name else h
  | none => c.name

/-- The error pushed for a candidate with fewer than 2 evidence URLs. -/
def evidenceError (c : Candidate) : ValidationError :=
  { path := "/candidates/" ++ candidateLabel c ++ "/evidence_urls"
    message := "Candidate \"" ++ c.name ++ "\" has fewer than 2 evidence URLs (required: 2, found: "
      ++ toString c.evidence_urls.length ++ ")" }

/-- The errors `validateHardRules` collects, in source order: one per
candidate with fewer than 2 evidence URLs, then the `workspace_id` blankness
check (the source tests `workspace_id.trim()`), then the `run_id` and
`project_profile_hash` presence checks. -/
def hardRuleErrors (brief : ConnectionBrief) : List ValidationError :=
  (brief.candidates.filterMap
    (fun c => if c.evidence_urls.length < 2 then some (evidenceError c) else none))
  ++ (if jsTrim brief.workspace_id = "" then
      [ValidationError.mk "/workspace_id" "workspace_id is required"] else [])
  ++ (if brief.run_id = "" then
      [ValidationError.mk "/run_id" "run_id is required for upload"] else [])
  ++ (if brief.project_profile_hash = "" then
      [ValidationError.mk "/project_profile_hash" "project_profile_hash is required"] else [])

/-- `validateHardRules`: the collected errors, with `valid` their absence. -/
def validateHardRules (brief : ConnectionBrief) : ValidationResult :=
  { valid := (hardRuleErrors brief).isEmpty, errors := hardRuleErrors brief }

/-- `validateFull`: the Ajv JSON-schema pass runs first (the schema is an
external asset consumed from a collaborator, so that pass is a parameter);
only a schema-valid brief reaches `validateHardRules`. -/
def validateFull (schemaCheck : ConnectionBrief → ValidationResult)
    (brief : ConnectionBrief) : ValidationResult :=
  let schemaResult := schemaCheck brief
  if !schemaResult.valid then schemaResult else validateHardRules brief

/-! ### `vault.ts` -/

/-- The `vault` section of the runner configuration, reduced to the fields
`getVaultApiUrl` and `uploadToVault` read. -/
structure VaultConfig where
  enabled : Bool
  api_url : Option String
  workspace_key : Option String
deriving DecidableEq, Repr

/-- The runner configuration, reduced to the fields the vault module reads. -/
structure Config where
  workspace_id : String
  workspace_key : Option String
  vault : Option VaultConfig
deriving DecidableEq, Repr

/-- ASCII letter test. -/
def isAlpha (c : Char) : Bool :=
  let n := c.toNat
  (65 ≤ n && n < 91) || (97 ≤ n && n < 123)

/-- Characters allowed after the first in a URL scheme. -/
def schemeChar (c : Char) : Bool := isAlpha c || isDig c || c = '+' || c = '-' || c = '.'

/-- Split a leading `scheme:` off a URL, or fail (`new URL` throws without a
valid scheme). -/
def splitScheme (cs : List Char) : Option (List Char × List Char) :=
  match cs with
  | c :: rest =>
    if isAlpha c then
      let s := rest.takeWhile schemeChar
      match rest.drop s.length with
      | ':' :: r2 => some (c :: s, r2)
      | _ => none
    else none
  | [] => none

/-- The WHATWG special schemes whose URLs carry an authority. -/
def specialSchemes : List String := ["http", "https", "ws", "wss", "ftp", "file"]

/-- Extract the host from a `host[:port]` section, validating that the port
(if present) is numeric, as the WHATWG parser does.  IPv6 literals keep their
brackets. -/
def hostOfHostPort (hp : List Char) : Option (List Char) :=
  match hp with
  | '[' :: _ =>
    match firstOccIdx [']'] hp with
    | some j =>
      let host := hp.take (j + 1)
      match hp.drop (j + 1) with
      | [] => some host
      | ':' :: ds => if ds.all isDig then some host else none
      | _ => none
    | none => none
  | _ =>
    let host := hp.takeWhile (fun c => c ≠ ':')
    match hp.drop host.length with
    | [] => some host
    | _ :: ds => if ds.all isDig then some host else none

/-- Model of `new URL(s).hostname`, at the fidelity the configuration URLs
need: scheme validation, authority extraction with userinfo/port/path
stripping, ASCII lowercasing of the host, mandatory non-empty host for the
special schemes other than `file`, and `none` where the constructor throws.
Percent-decoding, IDNA and IPv4 normalization are not modelled. -/
def urlHostname (s : String) : Option String :=
  match splitScheme (trimChars s.data) with
  | none => none
  | some (schemeCs, rest) =>
    let scheme := lowerAscii (String.mk schemeCs)
    if scheme = "file" then
      -- the file scheme takes exactly two slashes before its (possibly
      -- empty) host; a third slash already starts the path
      if leadsWith ['/', '/'] rest then
        some (lowerAscii (String.mk ((rest.drop 2).takeWhile
          (fun c => c ≠ '/' && c ≠ '\\' && c ≠ '?' && c ≠ '#'))))
      else some ""
    else if scheme ∈ specialSchemes then
      let afterSlashes := rest.dropWhile (fun c => c = '/' || c = '\\')
      let authority := afterSlashes.takeWhile
        (fun c => c ≠ '/' && c ≠ '\\' && c ≠ '?' && c ≠ '#')
      let hp :=
        match lastOccIdx ['@'] authority with
        | some i => authority.drop (i + 1)
        | none => authority
      match hostOfHostPort hp with
      | none => none
      | some host =>
        if host.isEmpty then none
        else some (lowerAscii (String.mk host))
    else
      if leadsWith ['/', '/'] rest then
        let afterSlashes := rest.drop 2
        let authority := afterSlashes.takeWhile
          (fun c => c ≠ '/' && c ≠ '?' && c ≠ '#')
        let hp :=
          match lastOccIdx ['@'] authority with
          | some i => authority.drop (i + 1)
          | none => authority
        match hostOfHostPort hp with
        | none => none
        | some host => some (lowerAscii (String.mk host))
      else some ""

/-- The production vault URL. -/
def PRODUCTION_VAULT_URL : String := "https://clawbridge.cloud"

/-- `getVaultApiUrl`: a missing (or empty, hence falsy) `vault.api_url` gives
the production URL; a URL whose hostname is `localhost` or `127.0.0.1` gives
the production URL; a string the URL constructor rejects is returned
unchanged; anything else is returned unchanged. -/
def getVaultApiUrl (config : Config) : String :=
  match (config.vault).bind (fun v => v.api_url) with
  | none => PRODUCTION_VAULT_URL
  | some raw =>
    if raw = "" then PRODUCTION_VAULT_URL
    else
      match urlHostname raw with
      | some h =>
        if h = "localhost" || h = "127.0.0.1" then PRODUCTION_VAULT_URL else raw
      | none => raw

/-- The body of a successful upload response. -/
structure UploadResultData where
  ok : Bool
  runId : String
  vaultUrl : String
  message : Option String
deriving DecidableEq, Repr

/-- Outcome of one `axios.post` attempt: a 2xx resolution with its body, a
rejection carrying a response (its status, its body's `error` and `message`
fields, and the error object's own message), or a rejection with no response
(network-level failure). -/
inductive AttemptOutcome where
  | ok (res : UploadResultData)
  | httpErr (status : Nat) (dataError : Option String) (dataMessage : Option String)
      (errMessage : String)
  | netErr (errMessage : String)
deriving DecidableEq, Repr

/-- First truthy (present and non-empty) string in a list of options, as a
JavaScript `a || b || ...` chain selects it. -/
def firstTruthy : List (Option String) → Option String
  | [] => none
  | o :: os =>
    match o with
    | some s => if s = "" then firstTruthy os else some s
    | none => firstTruthy os

/-- What `uploadToVault` did: nothing (vault disabled, `null` returned), a
thrown error carrying a message, or a returned upload result. -/
inductive UploadOutcome where
  | disabledNone
  | errored (msg : String)
  | uploaded (r : UploadResultData)
deriving DecidableEq, Repr

/-- Full observable behavior of one `uploadToVault` call: its outcome, how
many HTTP requests it issued, and the waits it performed between attempts. -/
structure UploadTrace where
  outcome : UploadOutcome
  requests : Nat
  delays : List Nat
deriving DecidableEq, Repr

/-- The escalating backoff table (`1s, 3s, 9s`). -/
def backoffMs : List Nat := [1000, 3000, 9000]

/-- The retry loop of `uploadToVault`: at most 3 attempts; a resolved post
returns its body; a rejected post with a response whose status is a non-429
4xx throws immediately with the server-provided message; any other rejection
is retried after `backoffMs[attempt] || 9000` (no wait after the final
attempt); exhaustion rethrows the last error. -/
def uploadLoop (responses : Nat → AttemptOutcome) :
    Nat → Nat → Option String → List Nat → UploadTrace
  | 0, attempt, lastErr, delays =>
    { outcome := .errored (lastErr.getD "Upload failed after all retries")
      requests := attempt, delays := delays }
  | Nat.succ remaining, attempt, _, delays =>
    match responses attempt with
    | .ok r => { outcome := .uploaded r, requests := attempt + 1, delays := delays }
    | .httpErr status dErr dMsg eMsg =>
      let errorMessage := (firstTruthy [dErr, dMsg]).getD eMsg
      if 400 ≤ status && status < 500 && status ≠ 429 then
        { outcome := .errored ("Upload failed: " ++ errorMessage)
          requests := attempt + 1, delays := delays }
      else
        let delays2 :=
          if attempt + 1 < 3 then delays ++ [backoffMs.getD attempt 9000] else delays
        uploadLoop responses remaining (attempt + 1) (some eMsg) delays2
    | .netErr eMsg =>
      let delays2 :=
        if attempt + 1 < 3 then delays ++ [backoffMs.getD attempt 9000] else delays
      uploadLoop responses remaining (attempt + 1) (some eMsg) delays2

/-- `uploadToVault`: return `null` when the vault is disabled; require an API
key (`vault.workspace_key || workspace_key`); validate the brief with
`validateFull` and throw without any HTTP request when it fails; then run the
retry loop. -/
def uploadToVault (schemaCheck : ConnectionBrief → ValidationResult)
    (brief : ConnectionBrief) (config : Config)
    (responses : Nat → AttemptOutcome) : UploadTrace :=
  match config.vault with
  | none => { outcome := .disabledNone, requests := 0, delays := [] }
  | some v =>
    if !v.enabled then { outcome := .disabledNone, requests := 0, delays := [] }
    else
      match firstTruthy [v.workspace_key, config.workspace_key] with
      | none =>
        { outcome := .errored "Workspace API key required for vault upload. Set CLAWBRIDGE_WORKSPACE_KEY environment variable."
          requests := 0, delays := [] }
      | some _ =>
        let validation := validateFull schemaCheck brief
        if !validation.valid then
          { outcome := .errored "Validation failed. Connection brief will not be uploaded."
            requests := 0, delays := [] }
        else uploadLoop responses 3 0 none []

/-! ### The Run Archiver's avoid-list merge -/

/-- Modelled from the spec: the Run Archiver's avoid-list merge
(`updateAvoidList`) is described in the specification but the function is not
present under `src/`.  Per the spec's words, the merge appends each collected
identifier to the list unless an entry with the same lowercase form is
already there, preserving original casing and insertion order. -/
def mergeAvoidList (existing : List String) (ids : List String) : List String :=
  ids.foldl
    (fun acc idf => if acc.any (fun e => lowerAscii e = lowerAscii idf) then acc else acc ++ [idf])
    existing

/-- Modelled from the spec: the identifiers collected from one candidate of
the just-completed run (name, company, handle). -/
def candidateIdentifiers (c : Candidate) : List String :=
  [c.name]
    ++ (match c.company with | some s => [s] | none => [])
    ++ (match c.handle with | some s => [s] | none => [])

/-- Modelled from the spec: all identifiers collected from a run's
candidates, in candidate order. -/
def runIdentifiers (cands : List Candidate) : List String :=
  (cands.map candidateIdentifiers).flatten

/-- A write the avoid-list merge performs against the configuration store. -/
inductive ConfigFsOp where
  | backup (timestamp : Nat) (prior : List String)
  | writeConfig (avoid : List String)
deriving DecidableEq, Repr

/-- Modelled from the spec: `updateAvoidList` reads the current
configuration, merges the run's identifiers into the avoid list, writes a
timestamped backup of the prior configuration, then overwrites the
configuration with the merged list, returning how many entries were added. -/
def updateAvoidList (existing : List String) (cands : List Candidate) (timestamp : Nat) :
    List ConfigFsOp × Nat :=
  let merged := mergeAvoidList existing (runIdentifiers cands)
  ([ConfigFsOp.backup timestamp existing, ConfigFsOp.writeConfig merged],
    merged.length - existing.length)

/-- Is an upload outcome a thrown error? -/
def isErrored : UploadOutcome → Bool
  | .errored _ => true
  | _ => false

/-- Wrap a payload in a fenced code block. -/
def wrapFence (p : String) : String := "```\n" ++ p ++ "\n```"

/-- A fixed clock for concrete scenarios. -/
def fixedClock : Clock := ⟨fun _ => "2026-02-02"⟩

/-! ### Helper lemmas on whitespace trimming and scanning -/

theorem dropWhile_ws_idem (l : List Char) :
    (l.dropWhile jsonWs).dropWhile jsonWs = l.dropWhile jsonWs := by
  induction l with
  | nil => rfl
  | cons c l ih =>
    by_cases h : jsonWs c
    · simp [List.dropWhile_cons, h, ih]
    · simp [List.dropWhile_cons, h]

theorem trimChars_cons_ws (c : Char) (h : jsonWs c) (cs : List Char) :
    trimChars (c :: cs) = trimChars cs := by
  simp [trimChars, List.dropWhile_cons, h]

theorem trimChars_append_ws (c : Char) (h : jsonWs c) (cs : List Char) :
    trimChars (cs ++ [c]) = trimChars cs := by
  unfold trimChars
  rw [List.dropWhile_append]
  by_cases he : (cs.dropWhile jsonWs).isEmpty
  · rw [if_pos he]
    rw [List.isEmpty_iff] at he
    simp [he, List.dropWhile_cons, h]
  · rw [if_neg he]
    rw [List.isEmpty_iff] at he
    simp only [List.reverse_append, List.reverse_cons, List.reverse_nil, List.nil_append,
      List.cons_append, List.dropWhile_cons, h, if_true]

theorem trimChars_cons_not_ws (c : Char) (h : ¬ jsonWs c = true) (cs : List Char) :
    ∃ t, trimChars (c :: cs) = c :: t := by
  unfold trimChars
  rw [List.dropWhile_cons, if_neg h]
  rw [show (c :: cs).reverse = cs.reverse ++ [c] from by simp]
  rw [List.dropWhile_append]
  by_cases he : (cs.reverse.dropWhile jsonWs).isEmpty
  · rw [if_pos he]
    exact ⟨[], by simp [List.dropWhile_cons, h]⟩
  · rw [if_neg he]
    exact ⟨(cs.reverse.dropWhile jsonWs).reverse, by simp⟩

theorem bool_false_of_not {b : Bool} (h : ¬ b = true) : b = false := by
  cases b <;> simp_all

theorem trimChars_idem (cs : List Char) : trimChars (trimChars cs) = trimChars cs := by
  unfold trimChars
  rcases hd : cs.dropWhile jsonWs with _ | ⟨c, t⟩
  · simp
  · have hself : (c :: t).dropWhile jsonWs = c :: t := by
      have := dropWhile_ws_idem cs
      rw [hd] at this
      exact this
    have hc : ¬ jsonWs c = true := by
      intro hws
      rw [List.dropWhile_cons, if_pos hws] at hself
      have hlen := congrArg List.length hself
      have hle := (List.dropWhile_sublist (l := t) (p := jsonWs)).length_le
      simp only [List.length_cons] at hlen
      omega
    have hz : ∃ z, (c :: t).reverse.dropWhile jsonWs = z ++ [c] := by
      rw [show (c :: t).reverse = t.reverse ++ [c] from by simp]
      rw [List.dropWhile_append]
      by_cases he : (t.reverse.dropWhile jsonWs).isEmpty
      · rw [if_pos he]
        exact ⟨[], by simp [List.dropWhile_cons, bool_false_of_not hc]⟩
      · rw [if_neg he]
        exact ⟨t.reverse.dropWhile jsonWs, rfl⟩
    obtain ⟨z, hzz⟩ := hz
    have hzd : (z ++ [c]).dropWhile jsonWs = z ++ [c] := by
      have := dropWhile_ws_idem (c :: t).reverse
      rw [hzz] at this
      exact this
    have h1 : (z ++ [c]).reverse = c :: z.reverse := by simp
    have h2 : (c :: z.reverse).reverse = z ++ [c] := by simp
    rw [hzz, h1, List.dropWhile_cons, if_neg hc, h2, hzd, h1]

/-! ### Claim C10 — `getVaultApiUrl` -/

/-- C10 counterexample: the claim says a `vault.api_url` string that fails
URL parsing is returned unchanged, but the empty string fails URL parsing
(`new URL("")` throws) and is nevertheless replaced by the production URL,
because the source tests JavaScript truthiness (`!raw`) before parsing. -/
theorem c10_counterexample :
    (Config.mk "w" none (some (VaultConfig.mk true (some "") none))).vault.bind
        (fun v => v.api_url) = some ""
    ∧ urlHostname "" = none
    ∧ getVaultApiUrl (Config.mk "w" none (some (VaultConfig.mk true (some "") none)))
        = "https://clawbridge.cloud"
    ∧ ("https://clawbridge.cloud" : String) ≠ "" := by
  refine ⟨rfl, by decide, by decide, by decide⟩

/-- C10 (amended): an unset `vault.api_url` yields the production URL; an
`api_url` whose parsed hostname is `localhost` or `127.0.0.1` yields the
production URL; a NON-EMPTY `api_url` that fails URL parsing is returned
unchanged (the empty string, though it also fails URL parsing, is falsy and
treated as unset, yielding the production URL). -/
theorem c10_amended (cfg : Config) :
    (cfg.vault.bind (fun v => v.api_url) = none →
      getVaultApiUrl cfg = PRODUCTION_VAULT_URL)
    ∧ (∀ raw h, cfg.vault.bind (fun v => v.api_url) = some raw →
        urlHostname raw = some h → (h = "localhost" ∨ h = "127.0.0.1") →
        getVaultApiUrl cfg = PRODUCTION_VAULT_URL)
    ∧ (∀ raw, cfg.vault.bind (fun v => v.api_url) = some raw → raw ≠ "" →
        urlHostname raw = none → getVaultApiUrl cfg = raw)
    ∧ (cfg.vault.bind (fun v => v.api_url) = some "" →
        getVaultApiUrl cfg = PRODUCTION_VAULT_URL) := by
  refine ⟨?_, ?_, ?_, ?_⟩
  · intro h
    simp [getVaultApiUrl, h]
  · intro raw h hsome hh hcase
    have hne : raw ≠ "" := by
      intro he
      subst he
      rw [show urlHostname "" = none from by decide] at hh
      cases hh
    rw [getVaultApiUrl, hsome]
    simp only [if_neg hne, hh]
    rcases hcase with h1 | h1 <;> simp [h1, PRODUCTION_VAULT_URL]
  · intro raw hsome hne hnone
    rw [getVaultApiUrl, hsome]
    simp only [if_neg hne, hnone]
  · intro hsome
    rw [getVaultApiUrl, hsome]
    simp

/-- C10 witness: the three behaviors of `c10_amended` at concrete
configurations. -/
theorem c10_witness :
    getVaultApiUrl (Config.mk "w" none (some (VaultConfig.mk true (some "http://localhost:3001") none)))
      = PRODUCTION_VAULT_URL
    ∧ getVaultApiUrl (Config.mk "w" none (some (VaultConfig.mk true none none)))
      = PRODUCTION_VAULT_URL
    ∧ getVaultApiUrl (Config.mk "w" none (some (VaultConfig.mk true (some "not a url") none)))
      = "not a url" := by
  refine ⟨?_, ?_, ?_⟩
  · exact (c10_amended _).2.1 "http://localhost:3001" "localhost" rfl (by decide) (Or.inl rfl)
  · exact (c10_amended _).1 rfl
  · exact (c10_amended _).2.2.1 "not a url" rfl (by decide) (by decide)

/-! ### Claim C7 — `validateHardRules` boundaries -/

/-- C7 counterexample: the claim's hypotheses only require `workspace_id`,
`run_id` and `project_profile_hash` to be non-empty; with the non-empty but
blank `workspace_id` `" "` and a candidate carrying exactly 2 evidence URLs,
the claim asserts `valid = true` with no errors, but the source tests
`workspace_id.trim()`, so validation fails. -/
theorem c7_counterexample :
    (" " : String) ≠ ""
    ∧ (∀ c ∈ (ConnectionBrief.mk " " "r" "h"
        [Candidate.mk "Duo" none none ["u1", "u2"]]).candidates,
        c.evidence_urls.length = 2)
    ∧ (validateHardRules (ConnectionBrief.mk " " "r" "h"
        [Candidate.mk "Duo" none none ["u1", "u2"]])).valid = false
    ∧ (validateHardRules (ConnectionBrief.mk " " "r" "h"
        [Candidate.mk "Duo" none none ["u1", "u2"]])).errors ≠ [] := by
  refine ⟨by decide, by decide, by decide, by decide⟩

/-- C7 (amended): for briefs whose `workspace_id` is non-blank (non-empty
after trimming) and whose `run_id` and `project_profile_hash` are non-empty:
a candidate with exactly 1 evidence URL makes validation fail with an error
message naming that candidate, and if every candidate has exactly 2 evidence
URLs validation succeeds with an empty error list. -/
theorem c7_amended (brief : ConnectionBrief)
    (hws : jsTrim brief.workspace_id ≠ "")
    (hrun : brief.run_id ≠ "")
    (hhash : brief.project_profile_hash ≠ "") :
    (∀ c ∈ brief.candidates, c.evidence_urls.length = 1 →
      (validateHardRules brief).valid = false
      ∧ ∃ err ∈ (validateHardRules brief).errors,
          ∃ pre suf, err.message = pre ++ c.name ++ suf)
    ∧ ((∀ c ∈ brief.candidates, c.evidence_urls.length = 2) →
      (validateHardRules brief).valid = true ∧ (validateHardRules brief).errors = []) := by
  constructor
  · intro c hc hlen
    have hmem : evidenceError c ∈ (validateHardRules brief).errors := by
      show evidenceError c ∈ hardRuleErrors brief
      unfold hardRuleErrors
      refine List.mem_append_left _ (List.mem_append_left _ (List.mem_append_left _ ?_))
      exact List.mem_filterMap.mpr ⟨c, hc, by rw [hlen]; rfl⟩
    constructor
    · have hne : (validateHardRules brief).errors ≠ [] := by
        intro h0
        rw [h0] at hmem
        cases hmem
      rcases hl : (validateHardRules brief).errors with _ | ⟨e, es⟩
      · exact absurd hl hne
      · have hv : (validateHardRules brief).valid = (validateHardRules brief).errors.isEmpty := rfl
        rw [hv, hl]
        rfl
    · refine ⟨evidenceError c, hmem, "Candidate \"",
        "\" has fewer than 2 evidence URLs (required: 2, found: "
          ++ toString c.evidence_urls.length ++ ")", ?_⟩
      simp [evidenceError, String.append_assoc]
  · intro hall
    have hcand : (brief.candidates.filterMap fun c =>
        if c.evidence_urls.length < 2 then some (evidenceError c) else none) = [] := by
      rw [List.filterMap_eq_nil_iff]
      intro c hc
      simp [hall c hc]
    constructor
    · simp [validateHardRules, hardRuleErrors, hcand, if_neg hws, if_neg hrun, if_neg hhash]
    · simp [validateHardRules, hardRuleErrors, hcand, if_neg hws, if_neg hrun, if_neg hhash]

/-- C7 witness: `c7_amended` at two concrete briefs, one with a 1-URL
candidate (fails, error names the candidate) and one with only 2-URL
candidates (passes cleanly). -/
theorem c7_witness :
    ((validateHardRules (ConnectionBrief.mk "w" "r" "h"
        [Candidate.mk "Solo" (some "@solo") none ["u1"]])).valid = false
      ∧ ∃ err ∈ (validateHardRules (ConnectionBrief.mk "w" "r" "h"
          [Candidate.mk "Solo" (some "@solo") none ["u1"]])).errors,
          ∃ pre suf, err.message = pre ++ "Solo" ++ suf)
    ∧ ((validateHardRules (ConnectionBrief.mk "w" "r" "h"
        [Candidate.mk "Duo" none none ["u1", "u2"]])).valid = true
      ∧ (validateHardRules (ConnectionBrief.mk "w" "r" "h"
          [Candidate.mk "Duo" none none ["u1", "u2"]])).errors = []) := by
  constructor
  · exact (c7_amended _ (by decide) (by decide) (by decide)).1
      (Candidate.mk "Solo" (some "@solo") none ["u1"]) (by decide) (by decide)
  · exact (c7_amended _ (by decide) (by decide) (by decide)).2 (by decide)

/-! ### Claim C8 — validation gates the upload -/

/-- C8 counterexample: the claim says `uploadToVault` raises an error on
every brief that fails validation; with the vault disabled in the
configuration, the call returns `null` without raising any error (and without
any HTTP request), even on an invalid brief. -/
theorem c8_counterexample :
    (validateFull (fun _ => ValidationResult.mk true [])
        (ConnectionBrief.mk "" "" "" [])).valid = false
    ∧ uploadToVault (fun _ => ValidationResult.mk true [])
        (ConnectionBrief.mk "" "" "" [])
        (Config.mk "w" (some "key") (some (VaultConfig.mk false none (some "key"))))
        (fun _ => AttemptOutcome.netErr "unreachable")
      = UploadTrace.mk UploadOutcome.disabledNone 0 []
    ∧ isErrored UploadOutcome.disabledNone = false := by
  refine ⟨by decide, by decide, by decide⟩

/-- C8 (amended): on a brief that fails validation, `uploadToVault` never
issues an HTTP request (and performs no waits); when the vault is enabled it
raises an error (the missing-key error or the validation error) — when the
vault is disabled it returns `null` without error instead. -/
theorem c8_amended (schemaCheck : ConnectionBrief → ValidationResult)
    (brief : ConnectionBrief) (cfg : Config) (responses : Nat → AttemptOutcome)
    (hinvalid : (validateFull schemaCheck brief).valid = false) :
    (uploadToVault schemaCheck brief cfg responses).requests = 0
    ∧ (uploadToVault schemaCheck brief cfg responses).delays = []
    ∧ (∀ v, cfg.vault = some v → v.enabled = true →
        isErrored (uploadToVault schemaCheck brief cfg responses).outcome = true) := by
  rcases hv : cfg.vault with _ | v
  · refine ⟨by simp [uploadToVault, hv], by simp [uploadToVault, hv], ?_⟩
    intro v hsome
    cases hsome
  · rcases he : v.enabled with _ | _
    · refine ⟨by simp [uploadToVault, hv, he], by simp [uploadToVault, hv, he], ?_⟩
      intro v' hsome hen
      cases hsome
      rw [he] at hen
      cases hen
    · rcases hk : firstTruthy [v.workspace_key, cfg.workspace_key] with _ | k
      · refine ⟨by simp [uploadToVault, hv, he, hk], by simp [uploadToVault, hv, he, hk], ?_⟩
        intro v' hsome _
        cases hsome
        simp [uploadToVault, hv, he, hk, isErrored]
      · refine ⟨by simp [uploadToVault, hv, he, hk, hinvalid],
          by simp [uploadToVault, hv, he, hk, hinvalid], ?_⟩
        intro v' hsome _
        cases hsome
        simp [uploadToVault, hv, he, hk, hinvalid, isErrored]

/-- C8 witness: `c8_amended` at a concrete enabled configuration and invalid
brief — zero HTTP requests and an error raised. -/
theorem c8_witness :
    (uploadToVault (fun _ => ValidationResult.mk true [])
        (ConnectionBrief.mk "" "" "" [])
        (Config.mk "w" (some "key") (some (VaultConfig.mk true none none)))
        (fun _ => AttemptOutcome.netErr "unreachable")).requests = 0
    ∧ isErrored (uploadToVault (fun _ => ValidationResult.mk true [])
        (ConnectionBrief.mk "" "" "" [])
        (Config.mk "w" (some "key") (some (VaultConfig.mk true none none)))
        (fun _ => AttemptOutcome.netErr "unreachable")).outcome = true := by
  constructor
  · exact (c8_amended _ _ _ _ (by decide)).1
  · exact (c8_amended _ _ _ _ (by decide)).2.2 (VaultConfig.mk true none none) rfl rfl

/-! ### Claim C2 — the avoid-list merge -/

/-- Unfolding one merge step. -/
theorem mergeAvoidList_cons (existing : List String) (idf : String) (ids : List String) :
    mergeAvoidList existing (idf :: ids) =
      mergeAvoidList
        (if existing.any (fun e => lowerAscii e = lowerAscii idf)
          then existing else existing ++ [idf]) ids := rfl

/-- One step of the merge keeps the accumulator a prefix. -/
theorem mergeAvoidList_split (ids : List String) :
    ∀ existing, ∃ added, mergeAvoidList existing ids = existing ++ added
      ∧ added.Sublist ids
      ∧ ∀ x ∈ added, ∀ e ∈ existing, lowerAscii x ≠ lowerAscii e := by
  induction ids with
  | nil => exact fun existing => ⟨[], by simp [mergeAvoidList]⟩
  | cons idf ids ih =>
    intro existing
    by_cases hdup : existing.any (fun e => lowerAscii e = lowerAscii idf)
    · obtain ⟨added, heq, hsub, hdisj⟩ := ih existing
      refine ⟨added, ?_, hsub.cons idf, hdisj⟩
      rw [mergeAvoidList_cons, if_pos hdup]
      exact heq
    · obtain ⟨added, heq, hsub, hdisj⟩ := ih (existing ++ [idf])
      have hnotin : ∀ e ∈ existing, lowerAscii idf ≠ lowerAscii e := by
        intro e he hlow
        exact hdup (List.any_eq_true.mpr ⟨e, he, by simp [hlow]⟩)
      refine ⟨idf :: added, ?_, hsub.cons₂ idf, ?_⟩
      · rw [mergeAvoidList_cons, if_neg hdup, heq, List.append_assoc]
        rfl
      · intro x hx e he
        rcases hx with _ | hx
        · exact hnotin e he
        · exact hdisj x (by assumption) e (List.mem_append_left _ he)

/-- The merge preserves pairwise lowercase-distinctness. -/
theorem mergeAvoidList_pairwise (ids : List String) :
    ∀ existing, existing.Pairwise (fun a b => lowerAscii a ≠ lowerAscii b) →
      (mergeAvoidList existing ids).Pairwise (fun a b => lowerAscii a ≠ lowerAscii b) := by
  induction ids with
  | nil => exact fun existing h => by simpa [mergeAvoidList] using h
  | cons idf ids ih =>
    intro existing hpw
    by_cases hdup : existing.any (fun e => lowerAscii e = lowerAscii idf)
    · rw [mergeAvoidList_cons, if_pos hdup]
      exact ih existing hpw
    · rw [mergeAvoidList_cons, if_neg hdup]
      refine ih (existing ++ [idf]) ?_
      rw [List.pairwise_append]
      refine ⟨hpw, List.pairwise_singleton _ _, ?_⟩
      intro a ha b hb
      rcases List.mem_singleton.mp hb with rfl
      intro hlow
      exact hdup (List.any_eq_true.mpr ⟨a, ha, by simp [hlow]⟩)

/-- C2: `updateAvoidList` (modelled from the spec, which is the only place
the Run Archiver's merge is described) writes the timestamped backup of the
prior configuration strictly before overwriting the configuration with the
merged list; the merged list is the existing list followed by the run's new
identifiers in insertion order with original casing, deduplicated
case-insensitively (no lowercase collision with the existing list, and —
when the existing list was itself duplicate-free — none inside the result);
and the spec's concrete example merges to exactly
`["Acme Corp", "New Co"]`. -/
theorem c2_avoid_merge (existing : List String) (cands : List Candidate) (ts : Nat)
    (hdedup : existing.Pairwise (fun a b => lowerAscii a ≠ lowerAscii b)) :
    (updateAvoidList existing cands ts).1 =
      [ConfigFsOp.backup ts existing,
        ConfigFsOp.writeConfig (mergeAvoidList existing (runIdentifiers cands))]
    ∧ (∃ added, mergeAvoidList existing (runIdentifiers cands) = existing ++ added
        ∧ added.Sublist (runIdentifiers cands)
        ∧ ∀ x ∈ added, ∀ e ∈ existing, lowerAscii x ≠ lowerAscii e)
    ∧ (mergeAvoidList existing (runIdentifiers cands)).Pairwise
        (fun a b => lowerAscii a ≠ lowerAscii b)
    ∧ mergeAvoidList ["Acme Corp"]
        (runIdentifiers
          [Candidate.mk "Acme Corp" none none [], Candidate.mk "New Co" none none []])
        = ["Acme Corp", "New Co"] := by
  refine ⟨rfl, mergeAvoidList_split _ existing, mergeAvoidList_pairwise _ existing hdedup, ?_⟩
  decide

/-- C2 witness: `c2_avoid_merge` at the spec's own example. -/
theorem c2_witness :
    mergeAvoidList ["Acme Corp"]
      (runIdentifiers
        [Candidate.mk "Acme Corp" none none [], Candidate.mk "New Co" none none []])
      = ["Acme Corp", "New Co"]
    ∧ (updateAvoidList ["Acme Corp"]
        [Candidate.mk "Acme Corp" none none [], Candidate.mk "New Co" none none []] 7).1 =
      [ConfigFsOp.backup 7 ["Acme Corp"],
        ConfigFsOp.writeConfig ["Acme Corp", "New Co"]] := by
  constructor
  · exact (c2_avoid_merge ["Acme Corp"]
      [Candidate.mk "Acme Corp" none none [], Candidate.mk "New Co" none none []] 7
      (by simp)).2.2.2
  · have h := (c2_avoid_merge ["Acme Corp"]
      [Candidate.mk "Acme Corp" none none [], Candidate.mk "New Co" none none []] 7
      (by simp)).1
    rw [h, (c2_avoid_merge ["Acme Corp"]
      [Candidate.mk "Acme Corp" none none [], Candidate.mk "New Co" none none []] 7
      (by simp)).2.2.2]

/-! ### Claim C4 — the upload retry policy -/

/-- A rejected attempt the retry loop retries: any rejection that is not a
non-429 response in the 400–499 range. -/
def retryable : AttemptOutcome → Prop
  | .ok _ => False
  | .httpErr s _ _ _ => ¬(400 ≤ s ∧ s < 500 ∧ s ≠ 429)
  | .netErr _ => True

theorem uploadLoop_ok (responses : Nat → AttemptOutcome) (rem attempt : Nat)
    (le : Option String) (ds : List Nat) (r : UploadResultData)
    (h : responses attempt = .ok r) :
    uploadLoop responses (rem + 1) attempt le ds =
      UploadTrace.mk (.uploaded r) (attempt + 1) ds := by
  simp [uploadLoop, h]

theorem uploadLoop_http (responses : Nat → AttemptOutcome) (rem attempt : Nat)
    (le : Option String) (ds : List Nat) (s : Nat) (de dm : Option String) (em : String)
    (h : responses attempt = .httpErr s de dm em) :
    uploadLoop responses (rem + 1) attempt le ds =
      if 400 ≤ s && s < 500 && s ≠ 429 then
        UploadTrace.mk
          (.errored ("Upload failed: " ++ (firstTruthy [de, dm]).getD em)) (attempt + 1) ds
      else
        uploadLoop responses rem (attempt + 1) (some em)
          (if attempt + 1 < 3 then ds ++ [backoffMs.getD attempt 9000] else ds) := by
  simp only [uploadLoop, h]

theorem uploadLoop_net (responses : Nat → AttemptOutcome) (rem attempt : Nat)
    (le : Option String) (ds : List Nat) (em : String)
    (h : responses attempt = .netErr em) :
    uploadLoop responses (rem + 1) attempt le ds =
      uploadLoop responses rem (attempt + 1) (some em)
        (if attempt + 1 < 3 then ds ++ [backoffMs.getD attempt 9000] else ds) := by
  simp only [uploadLoop, h]

theorem uploadLoop_requests_le (responses : Nat → AttemptOutcome) :
    ∀ (rem attempt : Nat) (le : Option String) (ds : List Nat),
      (uploadLoop responses rem attempt le ds).requests ≤ attempt + rem := by
  intro rem
  induction rem with
  | zero =>
    intro attempt le ds
    simp [uploadLoop]
  | succ rem ih =>
    intro attempt le ds
    rcases h : responses attempt with r | ⟨s, de, dm, em⟩ | em
    · rw [uploadLoop_ok responses rem attempt le ds r h]
      dsimp only
      omega
    · rw [uploadLoop_http responses rem attempt le ds s de dm em h]
      split
      · dsimp only
        omega
      · have := ih (attempt + 1) (some em)
          (if attempt + 1 < 3 then ds ++ [backoffMs.getD attempt 9000] else ds)
        omega
    · rw [uploadLoop_net responses rem attempt le ds em h]
      have := ih (attempt + 1) (some em)
        (if attempt + 1 < 3 then ds ++ [backoffMs.getD attempt 9000] else ds)
      omega

/-- Analysis of the loop's third (final) attempt. -/
theorem uploadLoop_delays_retry_tail2 (responses : Nat → AttemptOutcome) (em1 : String)
    (hr0 : retryable (responses 0)) (hr1 : retryable (responses 1)) :
    (uploadLoop responses 1 2 (some em1) [1000, 3000]).delays
      = [1000, 3000].take ((uploadLoop responses 1 2 (some em1) [1000, 3000]).requests - 1)
    ∧ ∀ i, i + 1 < (uploadLoop responses 1 2 (some em1) [1000, 3000]).requests →
        retryable (responses i) := by
  have hfin : ∀ i, i + 1 < 3 → retryable (responses i) := by
    intro i hi
    rcases i with _ | _ | i
    · exact hr0
    · exact hr1
    · omega
  rcases h2 : responses 2 with r2 | ⟨s2, de2, dm2, em2⟩ | em2
  · rw [show (1 : Nat) = 0 + 1 from rfl, uploadLoop_ok responses 0 2 (some em1) [1000, 3000] r2 h2]
    exact ⟨rfl, hfin⟩
  case httpErr =>
    rw [show (1 : Nat) = 0 + 1 from rfl,
      uploadLoop_http responses 0 2 (some em1) [1000, 3000] s2 de2 dm2 em2 h2]
    by_cases hb2 : (400 ≤ s2 && s2 < 500 && s2 ≠ 429) = true
    · rw [if_pos hb2]
      exact ⟨rfl, hfin⟩
    · rw [if_neg hb2]
      have : (if 2 + 1 < 3 then [1000, 3000] ++ [backoffMs.getD 2 9000] else [1000, 3000])
          = [1000, 3000] := by norm_num
      rw [this]
      exact ⟨rfl, hfin⟩
  case netErr =>
    rw [show (1 : Nat) = 0 + 1 from rfl, uploadLoop_net responses 0 2 (some em1) [1000, 3000] em2 h2]
    have : (if 2 + 1 < 3 then [1000, 3000] ++ [backoffMs.getD 2 9000] else [1000, 3000])
        = [1000, 3000] := by norm_num
    rw [this]
    exact ⟨rfl, hfin⟩

/-- Analysis of the loop's second and third attempts. -/
theorem uploadLoop_delays_retry_tail (responses : Nat → AttemptOutcome) (em0 : String)
    (hr0 : retryable (responses 0)) :
    (uploadLoop responses 2 1 (some em0) [1000]).delays
      = [1000, 3000].take ((uploadLoop responses 2 1 (some em0) [1000]).requests - 1)
    ∧ ∀ i, i + 1 < (uploadLoop responses 2 1 (some em0) [1000]).requests →
        retryable (responses i) := by
  have htwo : ∀ i, i + 1 < 2 → retryable (responses i) := by
    intro i hi
    rcases i with _ | i
    · exact hr0
    · omega
  rcases h1 : responses 1 with r1 | ⟨s1, de1, dm1, em1⟩ | em1
  · rw [show (2 : Nat) = 1 + 1 from rfl, uploadLoop_ok responses 1 1 (some em0) [1000] r1 h1]
    exact ⟨rfl, htwo⟩
  case httpErr =>
    rw [show (2 : Nat) = 1 + 1 from rfl,
      uploadLoop_http responses 1 1 (some em0) [1000] s1 de1 dm1 em1 h1]
    by_cases hb1 : (400 ≤ s1 && s1 < 500 && s1 ≠ 429) = true
    · rw [if_pos hb1]
      exact ⟨rfl, htwo⟩
    · rw [if_neg hb1]
      have hr1 : retryable (responses 1) := by
        rw [h1]
        intro ⟨ha, hbb, hcc⟩
        exact hb1 (by simp [ha, hbb, hcc])
      have hds2 : (if 1 + 1 < 3 then [1000] ++ [backoffMs.getD 1 9000] else [1000])
          = [1000, 3000] := by norm_num [backoffMs]
      rw [hds2]
      exact uploadLoop_delays_retry_tail2 responses em1 hr0 hr1
  case netErr =>
    rw [show (2 : Nat) = 1 + 1 from rfl, uploadLoop_net responses 1 1 (some em0) [1000] em1 h1]
    have hr1 : retryable (responses 1) := by rw [h1]; trivial
    have hds2 : (if 1 + 1 < 3 then [1000] ++ [backoffMs.getD 1 9000] else [1000])
        = [1000, 3000] := by norm_num [backoffMs]
    rw [hds2]
    exact uploadLoop_delays_retry_tail2 responses em1 hr0 hr1

/-- The delays recorded and the retry condition obeyed by a full run of the
loop, by exhaustive analysis of the at-most-three attempts. -/
theorem uploadLoop_delays_retry (responses : Nat → AttemptOutcome) :
    (uploadLoop responses 3 0 none []).delays
      = [1000, 3000].take ((uploadLoop responses 3 0 none []).requests - 1)
    ∧ ∀ i, i + 1 < (uploadLoop responses 3 0 none []).requests → retryable (responses i) := by
  have hle := uploadLoop_requests_le responses 3 0 none []
  rcases h0 : responses 0 with r0 | ⟨s0, de0, dm0, em0⟩ | em0
  · rw [show (3 : Nat) = 2 + 1 from rfl, uploadLoop_ok responses 2 0 none [] r0 h0]
    exact ⟨rfl, fun i hi => absurd hi (by dsimp only at *; omega)⟩
  case httpErr =>
    rw [show (3 : Nat) = 2 + 1 from rfl, uploadLoop_http responses 2 0 none [] s0 de0 dm0 em0 h0]
    by_cases hb0 : (400 ≤ s0 && s0 < 500 && s0 ≠ 429) = true
    · rw [if_pos hb0]
      exact ⟨rfl, fun i hi => absurd hi (by dsimp only at *; omega)⟩
    · rw [if_neg hb0]
      have hr0 : retryable (responses 0) := by
        rw [h0]
        intro ⟨ha, hbb, hcc⟩
        exact hb0 (by simp [ha, hbb, hcc])
      have hds1 : (if 0 + 1 < 3 then ([] : List Nat) ++ [backoffMs.getD 0 9000] else []) = [1000] := by
        norm_num [backoffMs]
      rw [hds1]
      exact uploadLoop_delays_retry_tail responses em0 hr0
  case netErr =>
    rw [show (3 : Nat) = 2 + 1 from rfl, uploadLoop_net responses 2 0 none [] em0 h0]
    have hr0 : retryable (responses 0) := by rw [h0]; trivial
    have hds1 : (if 0 + 1 < 3 then ([] : List Nat) ++ [backoffMs.getD 0 9000] else []) = [1000] := by
      norm_num [backoffMs]
    rw [hds1]
    exact uploadLoop_delays_retry_tail responses em0 hr0

/-- A mocked endpoint that rejects the first post with a 304 response and
accepts the second. -/
def respThreeOhFour : Nat → AttemptOutcome := fun n =>
  if n = 0 then AttemptOutcome.httpErr 304 none none "Request failed with status code 304"
  else AttemptOutcome.ok (UploadResultData.mk true "rid" "https://vault/run" none)

/-- C4 counterexample: the claim says an attempt is retried ONLY when the
response status is 5xx, or 429, or no response was received; a rejected
response with status 304 is none of those, yet the loop retries it (a second
request is made and succeeds), because the source only treats non-429
statuses in 400–499 as terminal. -/
theorem c4_counterexample :
    ¬(500 ≤ 304) ∧ (304 : Nat) ≠ 429
    ∧ (uploadLoop respThreeOhFour 3 0 none []).requests = 2
    ∧ (uploadLoop respThreeOhFour 3 0 none []).outcome
        = UploadOutcome.uploaded (UploadResultData.mk true "rid" "https://vault/run" none)
    ∧ (uploadLoop respThreeOhFour 3 0 none []).delays = [1000] := by
  refine ⟨by decide, by decide, by decide, by decide, by decide⟩

/-- C4 (amended): `uploadToVault`'s loop makes at most 3 attempts; the waits
between consecutive attempts are the escalating prefix `1s, 3s` of the
configured backoff table `1s, 3s, 9s`; an attempt is retried only when it
was a rejection that is 5xx, 429, a network-level failure, or any other
rejected status outside 400–499 (e.g. 304) — a non-429 status in 400–499 on
the first attempt is terminal immediately, with the server-provided message
surfaced; and against an endpoint answering 500, 500, 200 the upload
succeeds on the third attempt after 1s and 3s waits. -/
theorem c4_amended (responses : Nat → AttemptOutcome) :
    (uploadLoop responses 3 0 none []).requests ≤ 3
    ∧ (uploadLoop responses 3 0 none []).delays
        = [1000, 3000].take ((uploadLoop responses 3 0 none []).requests - 1)
    ∧ (∀ i, i + 1 < (uploadLoop responses 3 0 none []).requests → retryable (responses i))
    ∧ (∀ s de dm em, responses 0 = .httpErr s de dm em →
        400 ≤ s → s < 500 → s ≠ 429 →
        uploadLoop responses 3 0 none []
          = UploadTrace.mk
              (.errored ("Upload failed: " ++ (firstTruthy [de, dm]).getD em)) 1 [])
    ∧ (∀ de0 dm0 em0 de1 dm1 em1 r,
        responses 0 = .httpErr 500 de0 dm0 em0 →
        responses 1 = .httpErr 500 de1 dm1 em1 →
        responses 2 = .ok r →
        uploadLoop responses 3 0 none []
          = UploadTrace.mk (.uploaded r) 3 [1000, 3000]) := by
  refine ⟨uploadLoop_requests_le responses 3 0 none [],
    (uploadLoop_delays_retry responses).1,
    (uploadLoop_delays_retry responses).2, ?_, ?_⟩
  · intro s de dm em h0 h400 h500 h429
    rw [show (3 : Nat) = 2 + 1 from rfl, uploadLoop_http responses 2 0 none [] s de dm em h0]
    rw [if_pos (by simp [h400, h500, h429])]
  · intro de0 dm0 em0 de1 dm1 em1 r h0 h1 h2
    rw [show (3 : Nat) = 2 + 1 from rfl, uploadLoop_http responses 2 0 none [] 500 de0 dm0 em0 h0]
    rw [if_neg (by decide)]
    have hds1 : (if 0 + 1 < 3 then ([] : List Nat) ++ [backoffMs.getD 0 9000] else []) = [1000] := by
      norm_num [backoffMs]
    rw [hds1]
    rw [show (2 : Nat) = 1 + 1 from rfl,
      uploadLoop_http responses 1 1 (some em0) [1000] 500 de1 dm1 em1 h1]
    rw [if_neg (by decide)]
    have hds2 : (if 1 + 1 < 3 then [1000] ++ [backoffMs.getD 1 9000] else [1000])
        = [1000, 3000] := by norm_num [backoffMs]
    rw [hds2]
    rw [show (1 : Nat) = 0 + 1 from rfl, uploadLoop_ok responses 0 2 (some em1) [1000, 3000] r h2]

/-- A mocked endpoint answering 500, 500, 200. -/
def respFiveHundredTwice : Nat → AttemptOutcome := fun n =>
  if n < 2 then AttemptOutcome.httpErr 500 none (some "internal") "Request failed with status code 500"
  else AttemptOutcome.ok (UploadResultData.mk true "rid" "https://vault/run" none)

/-- A mocked endpoint answering 404 with a server-provided error body. -/
def respNotFound : Nat → AttemptOutcome := fun _ =>
  AttemptOutcome.httpErr 404 (some "Workspace not found") none "Request failed with status code 404"

/-- C4 witness: `c4_amended` applied to the 500/500/200 endpoint (success on
the third attempt with waits 1s then 3s) and to the 404 endpoint (immediate
terminal failure surfacing the server message). -/
theorem c4_witness :
    uploadLoop respFiveHundredTwice 3 0 none []
      = UploadTrace.mk (.uploaded (UploadResultData.mk true "rid" "https://vault/run" none))
          3 [1000, 3000]
    ∧ uploadLoop respNotFound 3 0 none []
      = UploadTrace.mk (.errored "Upload failed: Workspace not found") 1 [] := by
  constructor
  · exact (c4_amended respFiveHundredTwice).2.2.2.2 none (some "internal")
      "Request failed with status code 500" none (some "internal")
      "Request failed with status code 500" _ rfl rfl rfl
  · exact (c4_amended respNotFound).2.2.2.1 404 (some "Workspace not found") none
      "Request failed with status code 404" rfl (by decide) (by decide) (by decide)

/-! ### Claims C1 and C6 — the orchestrator's fallback behavior -/

/-- When neither tool produced a usable outcome, the exec-based orchestrator
returns the simulated result. -/
theorem executeDiscoveryV2_exhausted (env : ToolEnv)
    (h1 : (if env.openclawAvailable then usable env.openclawOutcome else none) = none)
    (h2 : (if env.clawdbotAvailable then usable env.clawdbotOutcome else none) = none) :
    OpenClawV2.executeDiscovery env = OpenClawV2.getSimulatedResult env.clock := by
  unfold OpenClawV2.executeDiscovery
  simp only [h1, h2]

/-- When neither tool produced a usable outcome, the spawn-based orchestrator
returns the simulated result. -/
theorem executeDiscoveryV3_exhausted (env : ToolEnv)
    (h1 : (if env.openclawAvailable then usable env.openclawOutcome else none) = none)
    (h2 : (if env.clawdbotAvailable then usable env.clawdbotOutcome else none) = none) :
    OpenClawV3.executeDiscovery env = OpenClawV3.getSimulatedResult env.clock := by
  unfold OpenClawV3.executeDiscovery
  simp only [h1, h2]

/-- C1 counterexample: with no tool available (and hence the whole fallback
chain exhausted), the claim says `executeDiscovery` fails with a
NoToolAvailable error and produces no `DiscoveryResult`; instead (in both
cited revisions) it returns the built-in simulated result — a
`DiscoveryResult` tagged `source = simulated` with a non-empty synthetic
candidates array.  No failure path exists: the function's result type is
total. -/
theorem c1_counterexample :
    (OpenClawV3.executeDiscovery (ToolEnv.mk false false none none fixedClock)).source
      = Source.simulated
    ∧ truthyLength
        (some (OpenClawV3.executeDiscovery (ToolEnv.mk false false none none fixedClock)).candidates)
      = true
    ∧ (OpenClawV2.executeDiscovery (ToolEnv.mk false false none none fixedClock)).source
      = Source.simulated
    ∧ truthyLength
        (some (OpenClawV2.executeDiscovery (ToolEnv.mk false false none none fixedClock)).candidates)
      = true := by
  refine ⟨rfl, rfl, rfl, rfl⟩

/-- C1 (amended): exhausting the fallback chain is not fatal — whenever no
tool is available or no tool produced a usable (truthy-length candidates)
outcome, `executeDiscovery` of both revisions returns its hard-coded
simulated result, whose source tag is `simulated` and whose candidates array
is non-empty synthetic data.  A `NoToolAvailable` failure does not exist in
the code. -/
theorem c1_amended (env : ToolEnv)
    (h1 : (if env.openclawAvailable then usable env.openclawOutcome else none) = none)
    (h2 : (if env.clawdbotAvailable then usable env.clawdbotOutcome else none) = none) :
    OpenClawV3.executeDiscovery env = OpenClawV3.getSimulatedResult env.clock
    ∧ OpenClawV2.executeDiscovery env = OpenClawV2.getSimulatedResult env.clock
    ∧ (OpenClawV3.getSimulatedResult env.clock).source = Source.simulated
    ∧ (OpenClawV2.getSimulatedResult env.clock).source = Source.simulated
    ∧ truthyLength (some (OpenClawV3.getSimulatedResult env.clock).candidates) = true
    ∧ truthyLength (some (OpenClawV2.getSimulatedResult env.clock).candidates) = true := by
  exact ⟨executeDiscoveryV3_exhausted env h1 h2, executeDiscoveryV2_exhausted env h1 h2,
    rfl, rfl, rfl, rfl⟩

/-- C1 witness: `c1_amended` at the concrete all-unavailable environment. -/
theorem c1_witness :
    OpenClawV3.executeDiscovery (ToolEnv.mk false false none none fixedClock)
      = OpenClawV3.getSimulatedResult fixedClock
    ∧ OpenClawV2.executeDiscovery (ToolEnv.mk false false none none fixedClock)
      = OpenClawV2.getSimulatedResult fixedClock := by
  exact ⟨(c1_amended (ToolEnv.mk false false none none fixedClock) rfl rfl).1,
    (c1_amended (ToolEnv.mk false false none none fixedClock) rfl rfl).2.1⟩

/-- The minimal smoke acknowledgment payload text. -/
def smokeAckText : String := "\x7b\"status\":\"ok\"\x7d"

/-- A CLI stdout envelope whose single payload text is the minimal smoke
acknowledgment. -/
def smokeStdout : String :=
  "\x7b\"payloads\":[\x7b\"text\":\"\x7b\\\"status\\\":\\\"ok\\\"\x7d\"\x7d]\x7d"

/-- The parsed form of `smokeStdout`. -/
def smokeEnvelopeJson : Json :=
  Json.obj [("payloads", Json.arr [Json.obj [("text", Json.str smokeAckText)]])]

/-- C6 counterexample: given a tool whose final payload is the smoke
acknowledgment `\x7b"status":"ok"\x7d`, the claim says the parser recognizes a
valid-but-empty outcome and the orchestrator returns a zero-candidate result
with a pipeline-check headline; instead the parser returns `null` (the
payload has no `candidates`), the orchestrator falls through the chain, and
the returned result is the simulated one — two synthetic candidates and the
headline `Found 2 candidates (simulated)`.  Bare `OK` is likewise a parse
failure. -/
theorem c6_counterexample :
    (OpenClawV2.parseResponse smokeStdout Source.openclaw).isSome = false
    ∧ (OpenClawV2.executeDiscovery
        (ToolEnv.mk true false
          (OpenClawV2.executeViaCLI (some "dev")
            (OpenClawV2.ExecOutcome.success smokeStdout "") Source.openclaw)
          none fixedClock)).source = Source.simulated
    ∧ (OpenClawV2.executeDiscovery
        (ToolEnv.mk true false
          (OpenClawV2.executeViaCLI (some "dev")
            (OpenClawV2.ExecOutcome.success smokeStdout "") Source.openclaw)
          none fixedClock)).metadata.candidates_evaluated = 2
    ∧ jsStrField (OpenClawV2.executeDiscovery
        (ToolEnv.mk true false
          (OpenClawV2.executeViaCLI (some "dev")
            (OpenClawV2.ExecOutcome.success smokeStdout "") Source.openclaw)
          none fixedClock)).summary "headline"
      = some "Found 2 candidates (simulated)"
    ∧ (OpenClawV2.extractJsonFromResponse "OK").isSome = false := by
  refine ⟨by decide, by decide, by decide, by decide, by decide⟩

/-- C6 (amended): the smoke acknowledgment `\x7b"status":"ok"\x7d` (and bare
`OK`) is treated as a parse failure, not as a distinct valid-but-empty
outcome: the parser yields `null` for any envelope whose first payload text
is the acknowledgment, and an orchestrator run in which no tool produced a
usable outcome returns the simulated result rather than a zero-candidate
pipeline-check result (the job's smoke/real mode is never consulted by the
parser or the orchestrator). -/
theorem c6_amended :
    (∀ s j src, parseJson s = some j →
      OpenClawV2.firstPayloadText j = smokeAckText →
      OpenClawV2.parseResponse s src = none)
    ∧ (∀ src, OpenClawV2.parseFromText smokeAckText src = none)
    ∧ (∀ src, OpenClawV2.parseFromText "OK" src = none)
    ∧ (∀ env, (if env.openclawAvailable then usable env.openclawOutcome else none) = none →
        (if env.clawdbotAvailable then usable env.clawdbotOutcome else none) = none →
        OpenClawV2.executeDiscovery env = OpenClawV2.getSimulatedResult env.clock) := by
  refine ⟨?_, ?_, ?_, ?_⟩
  · intro s j src hps htext
    unfold OpenClawV2.parseResponse
    rw [hps, Option.some_bind, htext]
    rfl
  · intro src
    rfl
  · intro src
    rfl
  · exact fun env h1 h2 => executeDiscoveryV2_exhausted env h1 h2

/-- C6 witness: `c6_amended` at the concrete smoke envelope and the
all-unavailable environment. -/
theorem c6_witness :
    OpenClawV2.parseResponse smokeStdout Source.openclaw = none
    ∧ OpenClawV2.executeDiscovery (ToolEnv.mk false false none none fixedClock)
      = OpenClawV2.getSimulatedResult fixedClock := by
  constructor
  · exact (c6_amended).1 smokeStdout smokeEnvelopeJson Source.openclaw rfl rfl
  · exact (c6_amended).2.2.2 _ rfl rfl

/-! ### Claim C3 — salvage of partial output after the hard kill -/

/-- A CLI stdout envelope whose single payload text is a valid discovery
payload with one candidate named `A`. -/
def candStdout : String :=
  "\x7b\"payloads\":[\x7b\"text\":\"\x7b\\\"candidates\\\":[\x7b\\\"name\\\":\\\"A\\\"\x7d]\x7d\"\x7d]\x7d"

/-- The result the parser builds from `candStdout` (spawn-based revision:
`completed = true`). -/
def candResult : DiscoveryResult :=
  { candidates := Json.arr [Json.obj [("name", Json.str "A")]]
    summary := Json.obj
      [("headline", Json.str "Found 1 candidates"),
       ("key_insights", Json.arr []),
       ("venues_searched", Json.arr [])]
    metadata :=
      { searches_performed := Json.num "0"
        pages_fetched := Json.num "0"
        candidates_evaluated := 1
        completed := some true }
    source := Source.openclaw }

/-- C3 counterexample: a process killed at the hard timeout (SIGTERM from
the timer) whose accumulated stdout already holds valid JSON with one
candidate.  The claim says the returned result has `metadata.completed =
false`; in the spawn-based revision `runCLI` resolves the stdout and
`parseResult` sets `completed = true` unconditionally — the candidates are
intact but `completed` is `true`, not `false`. -/
theorem c3_counterexample :
    OpenClawV3.runCLI (OpenClawV3.ProcRun.mk candStdout "" none (some "SIGTERM") true)
      = Except.ok candStdout
    ∧ ((OpenClawV3.executeViaCLI (some "dev")
        (OpenClawV3.ProcRun.mk candStdout "" none (some "SIGTERM") true)
        Source.openclaw).bind (fun r => r.metadata.completed)) = some true
    ∧ (((OpenClawV3.executeViaCLI (some "dev")
        (OpenClawV3.ProcRun.mk candStdout "" none (some "SIGTERM") true)
        Source.openclaw).bind (fun r => jsIndex r.candidates 0)).bind
          (fun c => jsStrField c "name")) = some "A" := by
  refine ⟨rfl, by decide, by decide⟩

/-- C3 (amended): when a tool invocation is killed at the hard timeout with
stdout already holding valid JSON with a non-empty candidates array, the
orchestrator does get a `DiscoveryResult` with those candidates intact (not
an empty or failed result); but only the earlier exec-based revision marks
`metadata.completed = false` on the salvage path — the spawn-based revision
resolves the accumulated stdout like a normal exit and `parseResult` sets
`metadata.completed = true` unconditionally. -/
theorem c3_amended :
    (∀ s src r, OpenClawV3.parseResult s src = some r → r.metadata.completed = some true)
    ∧ (∀ agent p src, p.stdoutAccum ≠ "" →
        OpenClawV3.executeViaCLI (some agent) p src = OpenClawV3.parseResult p.stdoutAccum src)
    ∧ (∀ agent killed sig st m src r s,
        (killed || sig = some "SIGTERM") = true → s ≠ "" →
        OpenClawV2.executeViaCLI (some agent)
          (OpenClawV2.ExecOutcome.failure killed sig (some s) st m) src = some r →
        r.metadata.completed = some false
        ∧ ∃ r0, OpenClawV2.parseResponse s src = some r0 ∧ r.candidates = r0.candidates) := by
  refine ⟨?_, ?_, ?_⟩
  · intro s src r h
    unfold OpenClawV3.parseResult OpenClawV2.parseResponse at h
    rcases hj : parseJson s with _ | j
    · rw [hj] at h
      cases h
    · rw [hj, Option.some_bind] at h
      unfold OpenClawV2.parseFromText at h
      rcases hx : OpenClawV2.extractJsonFromResponse (OpenClawV2.firstPayloadText j)
        with _ | data
      · rw [hx] at h
        cases h
      · simp only [hx] at h
        by_cases hT : truthyLength (jsField data "candidates") = true
        · rw [if_pos hT] at h
          cases h
          rfl
        · rw [if_neg hT] at h
          cases h
  · intro agent p src h
    unfold OpenClawV3.executeViaCLI OpenClawV3.runCLI
    rw [if_pos h]
  · intro agent killed sig st m src r s htimeout hne h2
    unfold OpenClawV2.executeViaCLI at h2
    simp only [htimeout, hne, if_true, ite_true, ne_eq, not_false_iff] at h2
    rcases hpr : OpenClawV2.parseResponse s src with _ | r0
    · simp only [hpr] at h2
      cases h2
    · simp only [hpr] at h2
      cases h2
      exact ⟨rfl, r0, rfl, rfl⟩

/-- C3 witness: `c3_amended` at the concrete killed process of the
counterexample (spawn-based revision: `completed = true`) and at the same
stdout salvaged through the exec-based revision (`completed = false`,
candidates intact). -/
theorem c3_witness :
    candResult.metadata.completed = some true
    ∧ OpenClawV3.executeViaCLI (some "dev")
        (OpenClawV3.ProcRun.mk candStdout "" none (some "SIGTERM") true) Source.openclaw
      = OpenClawV3.parseResult candStdout Source.openclaw
    ∧ ((OpenClawV2.executeViaCLI (some "dev")
        (OpenClawV2.ExecOutcome.failure true (some "SIGTERM") (some candStdout) none "killed")
        Source.openclaw).bind (fun r => r.metadata.completed)) = some false := by
  refine ⟨?_, ?_, ?_⟩
  · exact (c3_amended).1 candStdout Source.openclaw candResult rfl
  · exact (c3_amended).2.1 "dev"
      (OpenClawV3.ProcRun.mk candStdout "" none (some "SIGTERM") true)
      Source.openclaw (by decide)
  · have h := (c3_amended).2.2 "dev" true (some "SIGTERM") none "killed" Source.openclaw
      { candResult with metadata := { candResult.metadata with completed := some false } }
      candStdout (by decide) (by decide) rfl
    rw [show OpenClawV2.executeViaCLI (some "dev")
        (OpenClawV2.ExecOutcome.failure true (some "SIGTERM") (some candStdout) none "killed")
        Source.openclaw
      = some { candResult with metadata := { candResult.metadata with completed := some false } }
      from rfl]
    rw [Option.some_bind, h.1]

/-! ### Claim C5 — payload selection -/

/-- A CLI stdout envelope with two payloads: the first has empty text, the
last holds the valid discovery payload. -/
def twoPayloadStdout : String :=
  "\x7b\"payloads\":[\x7b\"text\":\"\"\x7d,\x7b\"text\":\"\x7b\\\"candidates\\\":[\x7b\\\"name\\\":\\\"A\\\"\x7d]\x7d\"\x7d]\x7d"

/-- The parsed form of `twoPayloadStdout`. -/
def twoPayloadJson : Json :=
  Json.obj [("payloads", Json.arr
    [Json.obj [("text", Json.str "")],
     Json.obj [("text", Json.str "\x7b\"candidates\":[\x7b\"name\":\"A\"\x7d]\x7d")]])]

/-- C5 counterexample: on an envelope whose first payload text is empty and
whose last payload holds the answer, the claim (scan from the last entry
backward for the first non-empty text) would produce the one-candidate
result — the spec-following parser `specParseResponse` does — but the code
reads `payloads?.[0]?.text ?? ''` and returns `null`. -/
theorem c5_counterexample :
    (OpenClawV2.parseResponse twoPayloadStdout Source.openclaw).isSome = false
    ∧ (OpenClawV2.specParseResponse twoPayloadStdout Source.openclaw).isSome = true
    ∧ ((OpenClawV2.specParseResponse twoPayloadStdout Source.openclaw).bind
        (fun r => jsIndex r.candidates 0)).bind (fun c => jsStrField c "name")
      = some "A" := by
  refine ⟨by decide, by decide, by decide⟩

/-- C5 (amended): the response parser selects the agent text from the FIRST
payload entry only (`payloads?.[0]?.text ?? ''`); it does not scan backward,
and when the first payload's text is empty the whole parse returns `null`
even if a later payload contains the answer. -/
theorem c5_amended :
    (∀ s j src, parseJson s = some j →
      OpenClawV2.parseResponse s src
        = OpenClawV2.parseFromText (OpenClawV2.firstPayloadText j) src)
    ∧ (∀ s j src, parseJson s = some j → OpenClawV2.firstPayloadText j = "" →
      OpenClawV2.parseResponse s src = none) := by
  constructor
  · intro s j src hps
    unfold OpenClawV2.parseResponse
    rw [hps, Option.some_bind]
  · intro s j src hps htext
    unfold OpenClawV2.parseResponse
    rw [hps, Option.some_bind, htext]
    rfl

/-- C5 witness: `c5_amended` at the concrete two-payload envelope. -/
theorem c5_witness :
    OpenClawV2.parseResponse twoPayloadStdout Source.openclaw = none
    ∧ OpenClawV2.parseResponse twoPayloadStdout Source.openclaw
      = OpenClawV2.parseFromText (OpenClawV2.firstPayloadText twoPayloadJson)
          Source.openclaw := by
  constructor
  · exact (c5_amended).2 twoPayloadStdout twoPayloadJson Source.openclaw rfl rfl
  · exact (c5_amended).1 twoPayloadStdout twoPayloadJson Source.openclaw rfl

/-! ### Claim C9 — fenced versus unfenced payloads -/

theorem leadsWith_self_append (pat ys : List Char) : leadsWith pat (pat ++ ys) = true := by
  induction pat with
  | nil => rfl
  | cons p ps ih => simp [leadsWith, ih]

theorem firstOccIdx_of_leadsWith (pat : List Char) (c : Char) (cs : List Char)
    (h : leadsWith pat (c :: cs) = true) : firstOccIdx pat (c :: cs) = some 0 := by
  simp [firstOccIdx, h]

theorem firstOccIdx_cons_of_not (pat : List Char) (c : Char) (cs : List Char)
    (h : leadsWith pat (c :: cs) = false) :
    firstOccIdx pat (c :: cs) = (firstOccIdx pat cs).map (· + 1) := by
  simp [firstOccIdx, h]

/-- Appending the `\n`-guarded closing fence cannot create a fence occurrence
at a position where none started before. -/
theorem leadsWith_fence_append_pad (c : Char) (xs : List Char)
    (h : leadsWith fence (c :: xs) = false) :
    leadsWith fence ((c :: xs) ++ '\n' :: fence) = false := by
  rcases xs with _ | ⟨d, _ | ⟨e, tail⟩⟩
  · simp only [List.cons_append, List.nil_append]
    simp [fence, leadsWith, backtick]
  · simp only [List.cons_append, List.nil_append]
    simp [fence, leadsWith, backtick]
  · simp only [List.cons_append]
    simp only [fence, leadsWith, Bool.and_true] at h ⊢
    exact h

/-- Where a character list has no fence occurrence, the padded closing fence
is the first occurrence, one past the end. -/
theorem firstOcc_fence_pad :
    ∀ xs : List Char, firstOccIdx fence xs = none →
      firstOccIdx fence (xs ++ '\n' :: fence) = some (xs.length + 1) := by
  intro xs
  induction xs with
  | nil =>
    intro _
    decide
  | cons c xs ih =>
    intro h
    by_cases hl : leadsWith fence (c :: xs) = true
    · rw [firstOccIdx_of_leadsWith fence c xs hl] at h
      cases h
    · have hlf : leadsWith fence (c :: xs) = false := bool_false_of_not hl
      have hxs : firstOccIdx fence xs = none := by
        rw [firstOccIdx_cons_of_not fence c xs hlf] at h
        exact Option.map_eq_none.mp h
      have hstep := firstOccIdx_cons_of_not fence c (xs ++ '\n' :: fence)
        (leadsWith_fence_append_pad c xs hlf)
      rw [show (c :: xs) ++ '\n' :: fence = c :: (xs ++ '\n' :: fence) from rfl, hstep,
        ih hxs]
      simp [List.length_cons]

theorem wrapFence_data (p : String) :
    (wrapFence p).data = fence ++ ('\n' :: p.data ++ '\n' :: fence) := by
  show ("```\n" ++ p ++ "\n```").data = _
  rw [String.data_append, String.data_append]
  rw [show ("```\n" : String).data = fence ++ ['\n'] from by decide]
  rw [show ("\n```" : String).data = '\n' :: fence from by decide]
  simp

/-- The grammar walker rejects any input whose first character is a
backtick. -/
theorem parseCore_backtick (fuel : Nat) (cs : List Char) :
    parseCore fuel ParseTask.value (backtick :: cs) = none := by
  cases fuel with
  | zero => rfl
  | succ n =>
    have hsk : skipWs (backtick :: cs) = backtick :: cs := by
      rw [skipWs, if_neg]
      intro hws
      exact absurd hws (by decide)
    simp only [parseCore, hsk]
    rw [if_neg (by decide), if_neg (by decide), if_neg (by decide), if_neg (by decide),
      if_neg (by decide), if_neg (by decide), if_neg (by decide)]

/-- `JSON.parse` fails on any fenced block: the wrapped text starts (after
trimming) with a backtick. -/
theorem parseJson_wrapFence (p : String) : parseJson (wrapFence p) = none := by
  unfold parseJson parseVal
  dsimp only
  rw [wrapFence_data]
  obtain ⟨t, ht⟩ := trimChars_cons_not_ws backtick (by decide)
    ([backtick, backtick] ++ ('\n' :: p.data ++ '\n' :: fence))
  rw [show fence ++ ('\n' :: p.data ++ '\n' :: fence)
      = backtick :: ([backtick, backtick] ++ ('\n' :: p.data ++ '\n' :: fence)) from rfl]
  rw [ht, parseCore_backtick]

/-- On a fenced payload that itself contains no fence, the fence-block regex
captures exactly the trimmed payload. -/
theorem fencedCapture_wrap (p : String) (hnf : firstOccIdx fence p.data = none) :
    fencedCapture (wrapFence p) = some (String.mk (trimChars p.data)) := by
  have h0 : firstOccIdx fence (fence ++ ('\n' :: p.data ++ '\n' :: fence)) = some 0 :=
    firstOccIdx_of_leadsWith fence backtick _
      (leadsWith_self_append fence ('\n' :: p.data ++ '\n' :: fence))
  have hr : (fence ++ ('\n' :: p.data ++ '\n' :: fence)).drop (0 + 3)
      = '\n' :: (p.data ++ '\n' :: fence) := by
    rw [show (0 + 3 : Nat) = fence.length from rfl, List.drop_left]
    simp
  have hjson : leadsWith ['j', 's', 'o', 'n'] ('\n' :: (p.data ++ '\n' :: fence)) = false := rfl
  have hocc : firstOccIdx fence ('\n' :: (p.data ++ '\n' :: fence))
      = some (p.data.length + 2) := by
    rw [firstOccIdx_cons_of_not fence '\n' (p.data ++ '\n' :: fence) (by rfl),
      firstOcc_fence_pad p.data hnf]
    rfl
  have htake : ('\n' :: (p.data ++ '\n' :: fence)).take (p.data.length + 2)
      = '\n' :: (p.data ++ ['\n']) := by
    rw [List.take_succ_cons]
    rw [show p.data ++ '\n' :: fence = p.data ++ ('\n' :: fence) from rfl,
      List.take_append 1]
    rfl
  unfold fencedCapture
  dsimp only
  rw [wrapFence_data, h0]
  dsimp only
  rw [hr, hjson, if_neg (by decide), hocc]
  dsimp only
  rw [htake, trimChars_cons_ws '\n' (by decide), trimChars_append_ws '\n' (by decide)]

/-- Trimming does not change what `JSON.parse` yields. -/
theorem parseJson_mk_trim (p : String) :
    parseJson (String.mk (trimChars p.data)) = parseJson p := by
  unfold parseJson
  rw [show (String.mk (trimChars p.data)).data = trimChars p.data from rfl, trimChars_idem]

/-- On a payload that parses as JSON and contains no fence, the layered
extraction gives the same value fenced and unfenced. -/
theorem extractJson_wrap (p : String) (v : Json) (hp : parseJson p = some v)
    (hnf : firstOccIdx fence p.data = none) :
    OpenClawV2.extractJsonFromResponse (wrapFence p) = some v := by
  unfold OpenClawV2.extractJsonFromResponse
  rw [parseJson_wrapFence p, fencedCapture_wrap p hnf, Option.some_bind,
    parseJson_mk_trim, hp, Option.none_orElse, Option.some_orElse]

/-- The payload with an escaped `candidates` key and an interior fence that
separates the two sides of the claim. -/
def escapedFencePayload : String :=
  "\x7b\"\\u0063andidates\":[\x7b\"name\":\"a```b\"\x7d]\x7d"

/-- C9 counterexample: the payload
`\x7b"\u0063andidates":[\x7b"name":"a```b"\x7d]\x7d` parses directly
(`\u0063` is `c`, so it has a non-empty `candidates` array), but wrapped in
a fenced block every strategy fails: direct parse sees the fence, the
fence-block regex captures up to the payload's interior backticks (an
unterminated prefix), and the fallback regex requires the literal text
`"candidates"`, which the escaped key does not contain — so the wrapped
parse yields `null`, not an identical result. -/
theorem c9_counterexample :
    (OpenClawV2.parseFromText escapedFencePayload Source.openclaw).isSome = true
    ∧ truthyLength ((OpenClawV2.parseFromText escapedFencePayload Source.openclaw).map
        (fun r => r.candidates)) = true
    ∧ (OpenClawV2.parseFromText (wrapFence escapedFencePayload) Source.openclaw).isSome
      = false := by
  refine ⟨by decide, by decide, by decide⟩

/-- C9 (amended): for every payload text that parses as JSON with a
non-empty `candidates` array AND does not itself contain the ``` fence
delimiter, parsing the payload wrapped in a fenced code block yields a
`DiscoveryResult` identical to parsing it unwrapped.  (The counterexample
shows the restriction is needed: an interior fence plus an escaped key
defeats all fallback strategies.) -/
theorem c9_amended (p : String) (src : Source) (v : Json)
    (hp : parseJson p = some v)
    (_hcand : truthyLength (jsField v "candidates") = true)
    (hnf : firstOccIdx fence p.data = none) :
    OpenClawV2.parseFromText (wrapFence p) src = OpenClawV2.parseFromText p src := by
  unfold OpenClawV2.parseFromText
  rw [extractJson_wrap p v hp hnf]
  rw [show OpenClawV2.extractJsonFromResponse p = some v from by
    unfold OpenClawV2.extractJsonFromResponse
    rw [hp, Option.some_orElse]]

/-- C9 witness: `c9_amended` at a concrete fence-free payload. -/
theorem c9_witness :
    OpenClawV2.parseFromText (wrapFence "\x7b\"candidates\":[\x7b\"name\":\"B\"\x7d]\x7d")
        Source.openclaw
      = OpenClawV2.parseFromText "\x7b\"candidates\":[\x7b\"name\":\"B\"\x7d]\x7d"
          Source.openclaw := by
  exact c9_amended "\x7b\"candidates\":[\x7b\"name\":\"B\"\x7d]\x7d" Source.openclaw
    (Json.obj [("candidates", Json.arr [Json.obj [("name", Json.str "B")]])])
    rfl (by decide) (by decide)

end ClawBridge

